import Mathlib

/-!
Verification development for the `network-generator` package
(`src/network-generator.js`).  The Network class keeps an ngraph graph whose
node payloads are peer-creation promises (later replaced by the settled peer
object) and whose link payloads are connection promises (later replaced by the
settled stream).  We embed the graph state, the synchronous part of each
operation, and promise settlement as explicit state-passing functions; the
event loop's close notifications (`end-of-stream` callbacks) are explicit
transitions.
-/

set_option maxRecDepth 4000

namespace NetGen

/-- JavaScript values as far as the code inspects them: either a byte Buffer
(`Buffer.isBuffer` is true) or some other value (modelled as string-like
values, for which `Buffer.isBuffer` is false). -/
inductive JSVal where
  | buffer (bytes : List Nat)
  | str (tag : Nat)
deriving DecidableEq

/-- `Buffer.isBuffer`. -/
def JSVal.isBuffer : JSVal → Bool
  | .buffer _ => true
  | .str _ => false

/-- `buffer.toString('hex')`: two hex digits (here, two nibble numbers) per
byte.  Used as the graph key for nodes. -/
def toHex : List Nat → List Nat
  | [] => []
  | b :: rest => b / 16 :: b % 16 :: toHex rest

/-- Key derivation for `deleteConnection`, which calls `.toString('hex')`
without asserting buffer-ness first: a Buffer yields its hex string, a
string-like value yields itself (encoded disjointly from hex strings). -/
def JSVal.toHexKey : JSVal → List Nat
  | .buffer bytes => toHex bytes
  | .str t => [100000 + t]

/-- The value resolved by the `createPeer` factory: an object with an `id`
property (the only field the code inspects). -/
structure PeerObj where
  id : JSVal
deriving DecidableEq

/-- Errors thrown by the code, one constructor per throw site. -/
inductive JsError where
  | assertFailed
  | peerNotFound (idHex : List Nat)
  | createPeerBadId
  | createConnectionNotStream
  | duplicateConnection
  | typeErrorNoDestroy
deriving DecidableEq

/-- Payload slot of a graph node (`node.data`): the pending `createPeer`
promise chain, the settled peer object, or the rejected chain. -/
inductive NodeSlot where
  | pending (rawId : List Nat)
  | settled (peer : PeerObj)
  | failed (e : JsError)
deriving DecidableEq

def NodeSlot.isPending : NodeSlot → Bool
  | .pending _ => true
  | _ => false

def NodeSlot.isSettled : NodeSlot → Bool
  | .settled _ => true
  | _ => false

/-- Payload slot of a graph link (`link.data`): the pending connection promise
chain, the settled stream (by stream id), or the rejected chain. -/
inductive LinkSlot where
  | pending
  | settled (sid : Nat)
  | failed (e : JsError)
deriving DecidableEq

def LinkSlot.isSettled : LinkSlot → Bool
  | .settled _ => true
  | _ => false

/-- A graph link (ngraph link): identity, endpoint keys, payload slot. -/
structure Link where
  lid : Nat
  fromId : List Nat
  toId : List Nat
  slot : LinkSlot
deriving DecidableEq

/-- State of one stream: `destroyed` is the stream's `destroyed` flag (set
synchronously by `stream.destroy()`); `closed` records that the
`end-of-stream` notification has fired (always on a later event-loop turn). -/
structure StreamSt where
  destroyed : Bool
  closed : Bool
deriving DecidableEq

/-- The whole Network state: the ngraph node list (key, payload), the link
list, the stream registry, and the fresh-id counters. -/
structure NetState where
  nodes : List (List Nat × NodeSlot)
  links : List Link
  streams : Nat → StreamSt
  nextLink : Nat
  nextStream : Nat

def emptyNet : NetState :=
  { nodes := [], links := [], streams := fun _ => ⟨false, false⟩,
    nextLink := 0, nextStream := 0 }

/-! ## ngraph graph primitives -/

def hasNode (key : List Nat) (s : NetState) : Bool :=
  s.nodes.any (fun n => n.1 == key)

def getNodeSlot (key : List Nat) (s : NetState) : Option NodeSlot :=
  (s.nodes.find? (fun n => n.1 == key)).map (fun n => n.2)

/-- ngraph `addNode`: re-adding an existing key overwrites its data in place
(keeping its links); otherwise the node is appended. -/
def graphAddNode (key : List Nat) (slot : NodeSlot) (s : NetState) : NetState :=
  if hasNode key s then
    { s with nodes := s.nodes.map (fun n => if n.1 == key then (n.1, slot) else n) }
  else
    { s with nodes := s.nodes ++ [(key, slot)] }

/-- ngraph `addLink`: appends a fresh link (ngraph is a multigraph, parallel
links are allowed).  `addConnection` guarantees both endpoint nodes exist
before calling this. -/
def graphAddLink (fromId toId : List Nat) (slot : LinkSlot) (s : NetState) : NetState :=
  { s with links := s.links ++ [⟨s.nextLink, fromId, toId, slot⟩],
           nextLink := s.nextLink + 1 }

/-- A link touches the given node key. -/
def incident (key : List Nat) (l : Link) : Bool :=
  l.fromId == key || l.toId == key

/-- ngraph `removeNode`: removes the node and every link attached to it. -/
def graphRemoveNode (key : List Nat) (s : NetState) : NetState :=
  { s with nodes := s.nodes.filter (fun n => !(n.1 == key)),
           links := s.links.filter (fun l => !incident key l) }

/-- ngraph `forEachLinkedNode` visits the links attached to a node. -/
def linkedLinks (key : List Nat) (s : NetState) : List Link :=
  s.links.filter (incident key)

/-- ngraph `hasLink(from, to)` (ordered endpoints), used by the part_001
revision's duplicate check. -/
def hasLinkOrdered (fromId toId : List Nat) (s : NetState) : Bool :=
  s.links.any (fun l => l.fromId == fromId && l.toId == toId)

/-! ## accessors -/

/-- `get peers ()`: pushes `node.data` for every node, in graph order.  The
entries are the raw payload slots, whatever their settlement state. -/
def peers (s : NetState) : List NodeSlot :=
  s.nodes.map (fun n => n.2)

/-- One entry of the `connections` accessor: `{ fromPeer, toPeer, stream }`
where the peers are the endpoint nodes' current payloads and `stream` is
`link.data`. -/
structure ConnectionView where
  fromPeer : Option NodeSlot
  toPeer : Option NodeSlot
  stream : LinkSlot
deriving DecidableEq

/-- `get connections ()`. -/
def connections (s : NetState) : List ConnectionView :=
  s.links.map (fun l => ⟨getNodeSlot l.fromId s, getNodeSlot l.toId s, l.slot⟩)

/-! ## Network operations, synchronous parts -/

/-- `addPeer(id)`, synchronous part: `assert(Buffer.isBuffer(id))`, then the
node is registered immediately under the hex key with the pending
`createPeer` promise chain as payload.  The first component is the thrown
exception, if any (mutations before a throw persist, as in JS; the assert is
the first statement so the state is untouched on failure). -/
def addPeer (id : JSVal) (s : NetState) : Option JsError × NetState :=
  match id with
  | .buffer bytes => (none, graphAddNode (toHex bytes) (NodeSlot.pending bytes) s)
  | _ => (some .assertFailed, s)

/-- The promise `addPeer` itself returns is the raw factory promise (not the
validated chain stored in `node.data`), so it resolves with whatever the
factory produced, even when validation of `node.data` fails. -/
def addPeerResult (createPeer : List Nat → PeerObj) (bytes : List Nat) : PeerObj :=
  createPeer bytes

/-- Settlement of a node payload: the `.then` chain registered by `addPeer`
runs once the factory resolves.  It validates only `Buffer.isBuffer(peer.id)`
(the id's byte content is not compared with the registration id); on success
`node.data = peer`, on failure the chain rejects and the node keeps the
rejected payload (the node is not removed). -/
def settleNode (createPeer : List Nat → PeerObj) (key : List Nat) (s : NetState) : NetState :=
  match getNodeSlot key s with
  | some (NodeSlot.pending rawId) =>
      let peer := createPeer rawId
      if peer.id.isBuffer then
        graphAddNode key (NodeSlot.settled peer) s
      else
        graphAddNode key (NodeSlot.failed JsError.createPeerBadId) s
  | _ => s

/-- `addConnection(from, to)`, synchronous part: asserts both arguments are
Buffers, auto-creates missing endpoint nodes via `addPeer`, and registers the
link immediately with a pending payload.  The current source has no duplicate
check. -/
def addConnection (fromV toV : JSVal) (s : NetState) : Option JsError × NetState :=
  match fromV, toV with
  | .buffer fromBytes, .buffer toBytes =>
      let fromHex := toHex fromBytes
      let toHex2 := toHex toBytes
      let s1 := if hasNode fromHex s then s else (addPeer fromV s).2
      let s2 := if hasNode toHex2 s1 then s1 else (addPeer toV s1).2
      (none, graphAddLink fromHex toHex2 LinkSlot.pending s2)
  | _, _ => (some .assertFailed, s)

/-- `addConnection` of the part_001 revision: identical, except that it first
throws `Connection ... exists` when `hasLink(fromHex, toHex)` (ordered). -/
def addConnectionV1 (fromV toV : JSVal) (s : NetState) : Option JsError × NetState :=
  match fromV, toV with
  | .buffer fromBytes, .buffer toBytes =>
      if hasLinkOrdered (toHex fromBytes) (toHex toBytes) s then
        (some JsError.duplicateConnection, s)
      else
        addConnection fromV toV s
  | _, _ => (some .assertFailed, s)

/-- What the `createConnection` factory can resolve to, as far as the code
inspects it: undefined/null, a stream (an object with a `pipe` function), or
some other non-stream value. -/
inductive ConnVal where
  | nil
  | stream
  | notStream
deriving DecidableEq

/-- The source line
`this._createConnection(await fromPeer.data, await toPeer.data) || new PassThrough()`:
the left operand of `||` is the Promise returned by the async wrapper, which
is an object and therefore always truthy, so the `new PassThrough()` fallback
is never taken and the connection resolves with the factory's value unchanged
(even when that value is undefined). -/
def connectionOrDefault (v : ConnVal) : ConnVal := v

/-- The same expression in the synchronous part_002 revision, where
`createConnection` is called directly (no async wrapper): there the `||`
applies to the factory's value itself, and undefined/null is genuinely
replaced by a default `PassThrough`. -/
def connectionOrDefaultSync (v : ConnVal) : ConnVal :=
  match v with
  | ConnVal.nil => ConnVal.stream
  | w => w

def setLinkSlot (lid : Nat) (slot : LinkSlot) (s : NetState) : NetState :=
  { s with links := s.links.map (fun l => if l.lid == lid then { l with slot := slot } else l) }

/-- Look a link up by its identity. -/
def findLink (lid : Nat) (s : NetState) : Option Link :=
  s.links.find? (fun l => l.lid == lid)

/-- Allocate a fresh stream in the registry (a new `PassThrough`-like stream:
not destroyed, not closed). -/
def allocStream (s : NetState) : Nat × NetState :=
  (s.nextStream, { s with nextStream := s.nextStream + 1 })

/-- Settlement of a link payload: the connection promise first awaits both
endpoint payloads (`await fromPeer.data` then `await toPeer.data`; a rejected
endpoint rejects the connection with that endpoint's error), then runs the
factory, then the `.then` chain validates that the resolved value is a stream
(`typeof stream === 'object' && typeof stream.pipe === 'function'`); on
success it attaches the `end-of-stream` observer and stores the stream in
`link.data`, on failure the chain rejects.  Endpoints still pending leave the
link pending (its promise has not settled yet). -/
def settleLinkGo (createConnection : PeerObj → PeerObj → ConnVal) (lid : Nat)
    (s : NetState) (l : Link) : NetState :=
  match l.slot with
  | LinkSlot.pending =>
      match getNodeSlot l.fromId s, getNodeSlot l.toId s with
      | some (NodeSlot.settled pf), some (NodeSlot.settled pt) =>
          match connectionOrDefault (createConnection pf pt) with
          | ConnVal.stream =>
              let r := allocStream s
              setLinkSlot lid (LinkSlot.settled r.1) r.2
          | _ => setLinkSlot lid (LinkSlot.failed JsError.createConnectionNotStream) s
      | some (NodeSlot.failed e), _ => setLinkSlot lid (LinkSlot.failed e) s
      | _, some (NodeSlot.failed e) => setLinkSlot lid (LinkSlot.failed e) s
      | _, _ => s
  | _ => s

def settleLink (createConnection : PeerObj → PeerObj → ConnVal) (lid : Nat)
    (s : NetState) : NetState :=
  match findLink lid s with
  | some l => settleLinkGo createConnection lid s l
  | none => s

/-! ## destruction -/

def setStreamDestroyed (sid : Nat) (s : NetState) : NetState :=
  { s with streams := fun x => if x = sid then { s.streams x with destroyed := true } else s.streams x }

/-- `_destroyLink(link)`: `if (!link.data.destroyed) link.data.destroy()`.
When the payload is still a promise (pending or rejected), `.destroyed` is
undefined (falsy) and `.destroy()` is not a function: a TypeError. -/
def destroyLink (l : Link) (s : NetState) : Option JsError × NetState :=
  match l.slot with
  | LinkSlot.settled sid =>
      if (s.streams sid).destroyed then (none, s) else (none, setStreamDestroyed sid s)
  | _ => (some .typeErrorNoDestroy, s)

/-- Iteration of `_destroyLink` over a list of links; an exception stops the
iteration and propagates (as a throw inside `forEach` does). -/
def destroyLinks : List Link → NetState → Option JsError × NetState
  | [], s => (none, s)
  | l :: rest, s =>
      match destroyLink l s with
      | (none, s1) => destroyLinks rest s1
      | (some e, s1) => (some e, s1)

/-- `deletePeer(id)`: asserts Buffer, throws `Peer ... not found` when the
node is absent, otherwise destroys every attached link's stream and then
removes the node (ngraph removes its links with it).  It is synchronous: it
does not wait for the destroyed streams' close notifications. -/
def deletePeer (id : JSVal) (s : NetState) : Option JsError × NetState :=
  match id with
  | .buffer bytes =>
      let idHex := toHex bytes
      if hasNode idHex s then
        match destroyLinks (linkedLinks idHex s) s with
        | (none, s1) => (none, graphRemoveNode idHex s1)
        | (some e, s1) => (some e, s1)
      else
        (some (JsError.peerNotFound idHex), s)
  | _ => (some .assertFailed, s)

/-- One link visit in `deleteConnection`: two independent `if` statements, one
for each orientation of the pair (a self-loop passes both; the second destroy
then sees the already-destroyed stream and is a no-op). -/
def destroyIfMatch (fromHex toHex2 : List Nat) (l : Link) (s : NetState) :
    Option JsError × NetState :=
  match (if l.fromId == fromHex && l.toId == toHex2 then destroyLink l s else (none, s)) with
  | (some e, s1) => (some e, s1)
  | (none, s1) =>
      if l.toId == fromHex && l.fromId == toHex2 then destroyLink l s1 else (none, s1)

def destroyMatches (fromHex toHex2 : List Nat) : List Link → NetState → Option JsError × NetState
  | [], s => (none, s)
  | l :: rest, s =>
      match destroyIfMatch fromHex toHex2 l s with
      | (none, s1) => destroyMatches fromHex toHex2 rest s1
      | (some e, s1) => (some e, s1)

/-- `deleteConnection(from, to)`: no buffer assertion; both arguments go
straight through `.toString('hex')`.  Two `forEachLinkedNode` passes (over the
links of `from`, then of `to`) destroy every link whose endpoints match the
pair in either orientation.  Links are not removed here; removal happens when
each destroyed stream's close notification fires. -/
def deleteConnection (fromV toV : JSVal) (s : NetState) : Option JsError × NetState :=
  let fromHex := fromV.toHexKey
  let toHex2 := toV.toHexKey
  match destroyMatches fromHex toHex2 (linkedLinks fromHex s) s with
  | (none, s1) => destroyMatches fromHex toHex2 (linkedLinks toHex2 s1) s1
  | (some e, s1) => (some e, s1)

/-- The `end-of-stream` notification for stream `sid` (fired on a later
event-loop turn after the stream is destroyed or closed by either side): the
stream now reports closed, and the observer attached at link settlement
removes the link from the graph. -/
def fireClose (sid : Nat) (s : NetState) : NetState :=
  { s with links := s.links.filter (fun l => !(l.slot == LinkSlot.settled sid)),
           streams := fun x => if x = sid then { s.streams x with closed := true } else s.streams x }

/-- A link whose settled stream has been destroyed but whose close
notification has not fired yet. -/
def closing (s : NetState) (sl : LinkSlot) : Bool :=
  match sl with
  | LinkSlot.settled sid => (s.streams sid).destroyed && !(s.streams sid).closed
  | _ => false

/-- The event loop delivering every outstanding close notification: each
destroyed stream fires `end-of-stream`, which marks it closed and removes its
link. -/
def runPendingCloses (s : NetState) : NetState :=
  { s with links := s.links.filter (fun l => !closing s l.slot),
           streams := fun x =>
             if (s.streams x).destroyed then { s.streams x with closed := true } else s.streams x }

/-- `this.peers.forEach(peer => this.deletePeer(peer.id))` inside `destroy()`:
the snapshot of node payloads is traversed and each peer's id is deleted.  A
payload that is still a promise has `peer.id === undefined`, which fails the
Buffer assertion inside `deletePeer`. -/
def destroyPeersLoop : List NodeSlot → NetState → Option JsError × NetState
  | [], s => (none, s)
  | sl :: rest, s =>
      match sl with
      | NodeSlot.settled p =>
          match deletePeer p.id s with
          | (none, s1) => destroyPeersLoop rest s1
          | (some e, s1) => (some e, s1)
      | _ => (some .assertFailed, s)

/-- `destroy()`: collects `end-of-stream` waits for every current connection,
deletes every peer on the next tick (cascading all link destructions), and
resolves once every destroyed stream has fully closed — represented here by
running the peer-deletion loop and then delivering all pending close
notifications before returning. -/
def destroy (s : NetState) : Option JsError × NetState :=
  match destroyPeersLoop (peers s) s with
  | (none, s1) => (none, runPendingCloses s1)
  | (some e, s1) => (some e, s1)

/-! ## NetworkGenerator -/

/-- The abstract builder calls a topology algorithm makes against the
generator's adapter (`addNode(id)` / `addLink(from, to)` with integer
indices). -/
inductive BuildOp where
  | addNode (i : Nat)
  | addLink (i j : Nat)
deriving DecidableEq

/-- One builder call: integer indices map through the IdGenerator (`ids`, the
cached random-buffer mapping) and into `network.addPeer` /
`network.addConnection`; the returned promises are discarded, only the
synchronous registrations take effect during the build. -/
def runOp (ids : Nat → List Nat) (s : NetState) (op : BuildOp) : NetState :=
  match op with
  | .addNode i => (addPeer (JSVal.buffer (ids i)) s).2
  | .addLink i j => (addConnection (JSVal.buffer (ids i)) (JSVal.buffer (ids j)) s).2

def runOps (ids : Nat → List Nat) (ops : List BuildOp) (s : NetState) : NetState :=
  ops.foldl (runOp ids) s

/-- `await Promise.all(network.peers)`: every node's payload chain settles. -/
def settleAllNodes (cp : List Nat → PeerObj) (s : NetState) : NetState :=
  (s.nodes.map (fun n => n.1)).foldl (fun st k => settleNode cp k st) s

/-- `await Promise.all(network.connections.map(conn => conn.stream))`: every
link's payload chain settles. -/
def settleAllLinks (cc : PeerObj → PeerObj → ConnVal) (s : NetState) : NetState :=
  (s.links.map (fun l => l.lid)).foldl (fun st lid => settleLink cc lid st) s

def firstNodeError (s : NetState) : Option JsError :=
  s.nodes.findSome? (fun n => match n.2 with | NodeSlot.failed e => some e | _ => none)

def firstLinkError (s : NetState) : Option JsError :=
  s.links.findSome? (fun l => match l.slot with | LinkSlot.failed e => some e | _ => none)

/-- A topology build: run the shape algorithm's builder calls against a fresh
network, then `await Promise.all(network.peers)` (rejecting if any peer chain
rejected), then `await Promise.all(...conn.stream)` (rejecting if any
connection chain rejected), and only then hand the network back. -/
def buildTopology (cp : List Nat → PeerObj) (cc : PeerObj → PeerObj → ConnVal)
    (ids : Nat → List Nat) (ops : List BuildOp) : Except JsError NetState :=
  let s0 := runOps ids ops emptyNet
  let s1 := settleAllNodes cp s0
  match firstNodeError s1 with
  | some e => Except.error e
  | none =>
      let s2 := settleAllLinks cc s1
      match firstLinkError s2 with
      | some e => Except.error e
      | none => Except.ok s2

/-! ## decidable state predicates (used as theorem hypotheses) -/

/-- Every matched node entry holds a settled peer whose id is a Buffer hashing
back to the node's own key (true for the default factory and the test
factories; not enforced by `addPeer`'s validation). -/
def nodeMatchB : List Nat × NodeSlot → Bool
  | (k, NodeSlot.settled p) =>
      match p.id with
      | JSVal.buffer bytes => toHex bytes == k
      | _ => false
  | _ => false

def nodesOk (s : NetState) : Bool :=
  s.nodes.all nodeMatchB

def linksSettled (s : NetState) : Bool :=
  s.links.all (fun l => l.slot.isSettled)

def linkEndsOk (s : NetState) : Bool :=
  s.links.all (fun l =>
    (s.nodes.map (fun n => n.1)).contains l.fromId &&
    (s.nodes.map (fun n => n.1)).contains l.toId)

/-- A link matches the unordered pair of hex keys. -/
def matchedU (aHex bHex : List Nat) (l : Link) : Bool :=
  (l.fromId == aHex && l.toId == bHex) || (l.toId == aHex && l.fromId == bHex)

/-- An optional node payload that is present and settled. -/
def settledOpt : Option NodeSlot → Bool
  | some sl => sl.isSettled
  | none => false

/-- A link payload whose stream (if settled) has not yet reported closed. -/
def notClosedB (s : NetState) : LinkSlot → Bool
  | LinkSlot.settled sid => !(s.streams sid).closed
  | _ => true

/-! ## reachability predicates -/

/-- Invariant of every state reachable through the builder: node keys are
unique (ngraph keys nodes by id), link ids are fresh and unique, and every
link's endpoints are registered nodes. -/
def StateInv (s : NetState) : Prop :=
  (s.nodes.map (fun n => n.1)).Nodup ∧
  (s.links.map (fun l => l.lid)).Nodup ∧
  (∀ l ∈ s.links, l.lid < s.nextLink) ∧
  (∀ l ∈ s.links, hasNode l.fromId s = true ∧ hasNode l.toId s = true)

/-- Every node payload has settled (successfully or not). -/
def NodesReady (s : NetState) : Prop :=
  ∀ p ∈ s.nodes, p.2.isPending = false

/-- Every link's endpoints are registered nodes. -/
def LinkEndsP (s : NetState) : Prop :=
  ∀ l ∈ s.links, hasNode l.fromId s = true ∧ hasNode l.toId s = true

/-! ## concrete instances for witnesses and counterexamples -/

/-- The default `createPeer` factory: `(nodeId) => ({ id: nodeId })`. -/
def defaultCreatePeer : List Nat → PeerObj :=
  fun bytes => ⟨JSVal.buffer bytes⟩

/-- The default `createConnection` factory: `() => new PassThrough()`. -/
def defaultCreateConnection : PeerObj → PeerObj → ConnVal :=
  fun _ _ => ConnVal.stream

/-- A factory resolving without an id Buffer. -/
def cpNoId : List Nat → PeerObj :=
  fun _ => ⟨JSVal.str 0⟩

/-- A factory resolving with an id Buffer different from the registration
id. -/
def cpWrongId : List Nat → PeerObj :=
  fun _ => ⟨JSVal.buffer [9]⟩

/-- A `createConnection` factory resolving to undefined. -/
def ccNil : PeerObj → PeerObj → ConnVal :=
  fun _ _ => ConnVal.nil

/-- A `createConnection` factory resolving to a non-stream value. -/
def ccNotStream : PeerObj → PeerObj → ConnVal :=
  fun _ _ => ConnVal.notStream

def ids0 : Nat → List Nat := fun i => [i]

/-- A small concrete build: a path on three nodes. -/
def ops0 : List BuildOp :=
  [BuildOp.addNode 0, BuildOp.addNode 1, BuildOp.addNode 2,
   BuildOp.addLink 0 1, BuildOp.addLink 1 2]

/-- The network the build on `ops0` resolves with. -/
def wS : NetState :=
  settleAllLinks defaultCreateConnection
    (settleAllNodes defaultCreatePeer (runOps ids0 ops0 emptyNet))

/-- A settled two-peer, one-connection network (stream 0 open). -/
def twoPeerNet : NetState :=
  { nodes := [(toHex [1], NodeSlot.settled ⟨JSVal.buffer [1]⟩),
              (toHex [2], NodeSlot.settled ⟨JSVal.buffer [2]⟩)],
    links := [⟨0, toHex [1], toHex [2], LinkSlot.settled 0⟩],
    streams := fun _ => ⟨false, false⟩,
    nextLink := 1, nextStream := 1 }

/-- A settled two-peer network with connections registered in both
orientations (streams 0 and 1 open). -/
def twoWayNet : NetState :=
  { nodes := [(toHex [1], NodeSlot.settled ⟨JSVal.buffer [1]⟩),
              (toHex [2], NodeSlot.settled ⟨JSVal.buffer [2]⟩)],
    links := [⟨0, toHex [1], toHex [2], LinkSlot.settled 0⟩,
              ⟨1, toHex [2], toHex [1], LinkSlot.settled 1⟩],
    streams := fun _ => ⟨false, false⟩,
    nextLink := 2, nextStream := 2 }

/-- The state right after `addPeer` registers a peer, before its factory
settles. -/
def c9s : NetState := (addPeer (JSVal.buffer [1]) emptyNet).2

/-- The state right after `addConnection` registers a connection, before
anything settles. -/
def c9s2 : NetState := (addConnection (JSVal.buffer [1]) (JSVal.buffer [2]) emptyNet).2

/-- Registration of peer `[1]` whose factory then resolves without an id
Buffer. -/
def c4s : NetState := settleNode cpNoId (toHex [1]) (addPeer (JSVal.buffer [1]) emptyNet).2

/-- Registration of peer `[1]` whose factory then resolves with the wrong id
Buffer `[9]`. -/
def c4s2 : NetState := settleNode cpWrongId (toHex [1]) (addPeer (JSVal.buffer [1]) emptyNet).2

/-- One registered connection and a second `addConnection` on the same ordered
pair. -/
def c5s1 : NetState := (addConnection (JSVal.buffer [1]) (JSVal.buffer [2]) emptyNet).2

def c5r : Option JsError × NetState := addConnection (JSVal.buffer [1]) (JSVal.buffer [2]) c5s1

/-- A registered connection between two settled peers whose `createConnection`
factory resolved to undefined. -/
def c7s : NetState :=
  settleLink ccNil 0 (settleAllNodes defaultCreatePeer c5s1)

/-- The same, with a factory resolving to a non-stream value. -/
def c7s2 : NetState :=
  settleLink ccNotStream 0 (settleAllNodes defaultCreatePeer c5s1)

/-! ## helper lemmas: list searching -/

theorem find?_none_of_any_false {α : Type} (p : α → Bool) (l : List α)
    (h : l.any p = false) : l.find? p = none := by
  rw [List.find?_eq_none]
  intro x hx
  have := (List.any_eq_false).1 h x hx
  simpa using this

theorem find?_by_key_of_nodup {α κ : Type} [DecidableEq κ] [BEq κ] [LawfulBEq κ] (key : α → κ) :
    ∀ (xs : List α), (xs.map key).Nodup → ∀ x ∈ xs, xs.find? (fun y => key y == key x) = some x
  | [], _, x, hx => by cases hx
  | a :: rest, h, x, hx => by
      have h' : (key a :: rest.map key).Nodup := by simpa using h
      rcases List.mem_cons.1 hx with rfl | hx'
      · rw [List.find?_cons_of_pos _ (by simp)]
      · have hrest : (rest.map key).Nodup := List.Nodup.of_cons h'
        have hka : key a ∉ rest.map key := (List.nodup_cons.1 h').1
        have hne : key a ≠ key x := by
          intro he
          apply hka
          rw [he]
          exact List.mem_map.2 ⟨x, hx', rfl⟩
        rw [List.find?_cons_of_neg _ (by simp [hne])]
        exact find?_by_key_of_nodup key rest hrest x hx'

/-! ## lemmas: graphAddNode and getNodeSlot -/

theorem links_graphAddNode (k : List Nat) (sl : NodeSlot) (s : NetState) :
    (graphAddNode k sl s).links = s.links := by
  unfold graphAddNode; split <;> rfl

theorem streams_graphAddNode (k : List Nat) (sl : NodeSlot) (s : NetState) :
    (graphAddNode k sl s).streams = s.streams := by
  unfold graphAddNode; split <;> rfl

theorem nodes_find?_map_update (key : List Nat) (sl : NodeSlot) :
    ∀ ns : List (List Nat × NodeSlot),
      (ns.map (fun n => if n.1 == key then (n.1, sl) else n)).find? (fun n => n.1 == key) =
        (ns.find? (fun n => n.1 == key)).map (fun n => (n.1, sl))
  | [] => rfl
  | a :: rest => by
      by_cases h : a.1 = key
      · rw [List.map_cons, if_pos (by simp [h]), List.find?_cons_of_pos _ (by simp [h]),
            List.find?_cons_of_pos _ (by simp [h])]
        simp [h]
      · rw [List.map_cons, if_neg (by simp [h]), List.find?_cons_of_neg _ (by simp [h]),
            List.find?_cons_of_neg _ (by simp [h])]
        exact nodes_find?_map_update key sl rest

theorem nodes_find?_map_update_other (key k' : List Nat) (sl : NodeSlot) (h : k' ≠ key) :
    ∀ ns : List (List Nat × NodeSlot),
      (ns.map (fun n => if n.1 == key then (n.1, sl) else n)).find? (fun n => n.1 == k') =
        ns.find? (fun n => n.1 == k')
  | [] => rfl
  | a :: rest => by
      by_cases ha : a.1 = key
      · rw [List.map_cons, if_pos (by simp [ha]),
            List.find?_cons_of_neg _ (by simp [ha]; exact Ne.symm h),
            List.find?_cons_of_neg _ (by simp [ha]; exact Ne.symm h)]
        exact nodes_find?_map_update_other key k' sl h rest
      · by_cases hp : a.1 = k'
        · rw [List.map_cons, if_neg (by simp [ha]), List.find?_cons_of_pos _ (by simp [hp]),
              List.find?_cons_of_pos _ (by simp [hp])]
        · rw [List.map_cons, if_neg (by simp [ha]), List.find?_cons_of_neg _ (by simp [hp]),
              List.find?_cons_of_neg _ (by simp [hp])]
          exact nodes_find?_map_update_other key k' sl h rest

theorem getNodeSlot_isSome (k : List Nat) (s : NetState) :
    (getNodeSlot k s).isSome = hasNode k s := by
  unfold getNodeSlot hasNode
  cases hf : s.nodes.find? (fun n => n.1 == k) with
  | none =>
      have : ∀ x ∈ s.nodes, ¬(x.1 == k) = true := List.find?_eq_none.1 hf
      exact (List.any_eq_false.2 this).symm
  | some v =>
      have hmem := List.mem_of_find?_eq_some hf
      have hp := List.find?_some hf
      exact (List.any_eq_true.2 ⟨v, hmem, hp⟩).symm

theorem hasNode_of_getNodeSlot {k : List Nat} {s : NetState} {sl : NodeSlot}
    (h : getNodeSlot k s = some sl) : hasNode k s = true := by
  rw [← getNodeSlot_isSome, h]; rfl

theorem getNodeSlot_graphAddNode_self (k : List Nat) (sl : NodeSlot) (s : NetState) :
    getNodeSlot k (graphAddNode k sl s) = some sl := by
  unfold graphAddNode getNodeSlot
  by_cases h : hasNode k s
  · simp only [if_pos h]
    rw [nodes_find?_map_update]
    have hs : (s.nodes.find? (fun n => n.1 == k)).isSome := by
      unfold hasNode at h
      obtain ⟨x, hx, hpx⟩ := List.any_eq_true.1 h
      exact List.find?_isSome.2 ⟨x, hx, hpx⟩
    obtain ⟨v, hv⟩ := Option.isSome_iff_exists.1 hs
    simp [hv]
  · simp only [if_neg h]
    have hnone : s.nodes.find? (fun n => n.1 == k) = none := by
      apply find?_none_of_any_false
      cases hB : s.nodes.any (fun n => n.1 == k)
      · rfl
      · exact absurd hB h
    rw [List.find?_append]
    simp [hnone]

theorem getNodeSlot_graphAddNode_other {k' k : List Nat} (sl : NodeSlot) (s : NetState)
    (h : k' ≠ k) : getNodeSlot k' (graphAddNode k sl s) = getNodeSlot k' s := by
  unfold graphAddNode getNodeSlot
  by_cases hh : hasNode k s
  · simp only [if_pos hh]
    rw [nodes_find?_map_update_other k k' sl h]
  · simp only [if_neg hh]
    rw [List.find?_append]
    have : ([(k, sl)].find? (fun n => n.1 == k')) = none := by
      simp [Ne.symm h]
    simp [this]

theorem hasNode_graphAddNode_self (k : List Nat) (sl : NodeSlot) (s : NetState) :
    hasNode k (graphAddNode k sl s) = true := by
  rw [← getNodeSlot_isSome, getNodeSlot_graphAddNode_self]; rfl

theorem hasNode_graphAddNode_mono {k'' k : List Nat} {sl : NodeSlot} {s : NetState}
    (h : hasNode k'' s = true) : hasNode k'' (graphAddNode k sl s) = true := by
  by_cases he : k'' = k
  · subst he; exact hasNode_graphAddNode_self k'' sl s
  · rw [← getNodeSlot_isSome, getNodeSlot_graphAddNode_other sl s he, getNodeSlot_isSome]
    exact h

theorem keys_graphAddNode_of_hasNode {k : List Nat} (sl : NodeSlot) {s : NetState}
    (h : hasNode k s = true) :
    (graphAddNode k sl s).nodes.map (fun n => n.1) = s.nodes.map (fun n => n.1) := by
  unfold graphAddNode; rw [if_pos h]
  simp only [List.map_map]
  apply List.map_congr_left
  intro n _
  by_cases hn : n.1 = k <;> simp [hn]

theorem nodupKeys_graphAddNode {k : List Nat} {sl : NodeSlot} {s : NetState}
    (h : (s.nodes.map (fun n => n.1)).Nodup) :
    ((graphAddNode k sl s).nodes.map (fun n => n.1)).Nodup := by
  by_cases hh : hasNode k s
  · rw [keys_graphAddNode_of_hasNode sl hh]; exact h
  · unfold graphAddNode; rw [if_neg hh]
    have hk : k ∉ s.nodes.map (fun n => n.1) := by
      intro hmem
      obtain ⟨n, hn, he⟩ := List.mem_map.1 hmem
      apply hh
      unfold hasNode
      exact List.any_eq_true.2 ⟨n, hn, by simp [he]⟩
    simp only [List.map_append, List.map_cons, List.map_nil]
    rw [List.nodup_append]
    refine ⟨h, List.nodup_singleton k, ?_⟩
    intro a ha hb
    simp only [List.mem_singleton] at hb
    exact hk (hb ▸ ha)

theorem getNodeSlot_of_nodup {s : NetState} (h : (s.nodes.map (fun n => n.1)).Nodup)
    {p : List Nat × NodeSlot} (hm : p ∈ s.nodes) : getNodeSlot p.1 s = some p.2 := by
  unfold getNodeSlot
  have := find?_by_key_of_nodup (fun n : List Nat × NodeSlot => n.1) s.nodes h p hm
  rw [this]
  rfl

/-! ## lemmas: settleNode -/

theorem settleNode_links (cp : List Nat → PeerObj) (k : List Nat) (s : NetState) :
    (settleNode cp k s).links = s.links := by
  unfold settleNode
  cases h : getNodeSlot k s with
  | none => rfl
  | some sl =>
      cases sl with
      | pending raw => by_cases hb : (cp raw).id.isBuffer <;> simp [hb, links_graphAddNode]
      | settled p => rfl
      | failed e => rfl

theorem settleNode_streams (cp : List Nat → PeerObj) (k : List Nat) (s : NetState) :
    (settleNode cp k s).streams = s.streams := by
  unfold settleNode
  cases h : getNodeSlot k s with
  | none => rfl
  | some sl =>
      cases sl with
      | pending raw => by_cases hb : (cp raw).id.isBuffer <;> simp [hb, streams_graphAddNode]
      | settled p => rfl
      | failed e => rfl

theorem settleNode_keys (cp : List Nat → PeerObj) (k : List Nat) (s : NetState) :
    (settleNode cp k s).nodes.map (fun n => n.1) = s.nodes.map (fun n => n.1) := by
  unfold settleNode
  cases h : getNodeSlot k s with
  | none => rfl
  | some sl =>
      cases sl with
      | pending raw =>
          have hk := hasNode_of_getNodeSlot h
          by_cases hb : (cp raw).id.isBuffer <;>
            simp [hb, keys_graphAddNode_of_hasNode _ hk]
      | settled p => rfl
      | failed e => rfl

theorem settleNode_getNodeSlot_other (cp : List Nat → PeerObj) {k' k : List Nat} (s : NetState)
    (h : k' ≠ k) : getNodeSlot k' (settleNode cp k s) = getNodeSlot k' s := by
  unfold settleNode
  cases hg : getNodeSlot k s with
  | none => rfl
  | some sl =>
      cases sl with
      | pending raw =>
          by_cases hb : (cp raw).id.isBuffer <;>
            simp [hb, getNodeSlot_graphAddNode_other _ s h]
      | settled p => rfl
      | failed e => rfl

theorem settleNode_nonpending_self (cp : List Nat → PeerObj) (k : List Nat) (s : NetState) :
    ∀ sl', getNodeSlot k (settleNode cp k s) = some sl' → sl'.isPending = false := by
  unfold settleNode
  cases hg : getNodeSlot k s with
  | none =>
      intro sl' h'
      have h'' : getNodeSlot k s = some sl' := h'
      rw [hg] at h''
      cases h''
  | some sl =>
      cases sl with
      | pending raw =>
          intro sl' h'
          have h'' : getNodeSlot k
              (if (cp raw).id.isBuffer then graphAddNode k (NodeSlot.settled (cp raw)) s
               else graphAddNode k (NodeSlot.failed JsError.createPeerBadId) s) = some sl' := h'
          by_cases hb : (cp raw).id.isBuffer
          · rw [if_pos hb, getNodeSlot_graphAddNode_self] at h''
            injection h'' with he
            rw [← he]
            rfl
          · rw [if_neg hb, getNodeSlot_graphAddNode_self] at h''
            injection h'' with he
            rw [← he]
            rfl
      | settled p =>
          intro sl' h'
          have h'' : getNodeSlot k s = some sl' := h'
          rw [hg] at h''
          injection h'' with he
          rw [← he]
          rfl
      | failed e =>
          intro sl' h'
          have h'' : getNodeSlot k s = some sl' := h'
          rw [hg] at h''
          injection h'' with he
          rw [← he]
          rfl

theorem settleNode_preserves_nonpending_at (cp : List Nat → PeerObj) {k : List Nat}
    (k'' : List Nat) {s : NetState}
    (h : ∀ sl, getNodeSlot k s = some sl → sl.isPending = false) :
    ∀ sl, getNodeSlot k (settleNode cp k'' s) = some sl → sl.isPending = false := by
  by_cases he : k = k''
  · subst he; exact settleNode_nonpending_self cp k s
  · intro sl hsl
    rw [settleNode_getNodeSlot_other cp s he] at hsl
    exact h sl hsl

theorem settleNode_settled_at (cp : List Nat → PeerObj) {k : List Nat} (k'' : List Nat)
    {s : NetState} {p : PeerObj} (h : getNodeSlot k s = some (NodeSlot.settled p)) :
    getNodeSlot k (settleNode cp k'' s) = some (NodeSlot.settled p) := by
  by_cases he : k = k''
  · subst he
    unfold settleNode
    rw [h]
    exact h
  · rw [settleNode_getNodeSlot_other cp s he]
    exact h

/-! ## lemmas: the Promise.all pass over node payloads -/

theorem foldSettleNodes_links (cp : List Nat → PeerObj) :
    ∀ (ks : List (List Nat)) (s : NetState),
      (ks.foldl (fun st k => settleNode cp k st) s).links = s.links
  | [], _ => rfl
  | k :: rest, s => by
      rw [List.foldl_cons, foldSettleNodes_links cp rest (settleNode cp k s), settleNode_links]

theorem foldSettleNodes_streams (cp : List Nat → PeerObj) :
    ∀ (ks : List (List Nat)) (s : NetState),
      (ks.foldl (fun st k => settleNode cp k st) s).streams = s.streams
  | [], _ => rfl
  | k :: rest, s => by
      rw [List.foldl_cons, foldSettleNodes_streams cp rest (settleNode cp k s),
          settleNode_streams]

theorem foldSettleNodes_keys (cp : List Nat → PeerObj) :
    ∀ (ks : List (List Nat)) (s : NetState),
      (ks.foldl (fun st k => settleNode cp k st) s).nodes.map (fun n => n.1) =
        s.nodes.map (fun n => n.1)
  | [], _ => rfl
  | k :: rest, s => by
      rw [List.foldl_cons, foldSettleNodes_keys cp rest (settleNode cp k s), settleNode_keys]

theorem foldSettleNodes_preserves_nonpending_at (cp : List Nat → PeerObj) (k : List Nat) :
    ∀ (ks : List (List Nat)) (s : NetState),
      (∀ sl, getNodeSlot k s = some sl → sl.isPending = false) →
      ∀ sl, getNodeSlot k (ks.foldl (fun st k' => settleNode cp k' st) s) = some sl →
        sl.isPending = false
  | [], _, h => h
  | k0 :: rest, s, h => by
      rw [List.foldl_cons]
      exact foldSettleNodes_preserves_nonpending_at cp k rest _
        (settleNode_preserves_nonpending_at cp k0 h)

theorem foldSettleNodes_nonpending (cp : List Nat → PeerObj) :
    ∀ (ks : List (List Nat)) (s : NetState) (k : List Nat), k ∈ ks →
      ∀ sl, getNodeSlot k (ks.foldl (fun st k' => settleNode cp k' st) s) = some sl →
        sl.isPending = false
  | [], _, k, hk => absurd hk (List.not_mem_nil k)
  | k0 :: rest, s, k, hk => by
      rw [List.foldl_cons]
      by_cases he : k = k0
      · subst he
        exact foldSettleNodes_preserves_nonpending_at cp k rest _
          (settleNode_nonpending_self cp k s)
      · rcases List.mem_cons.1 hk with h1 | h2
        · exact absurd h1 he
        · exact foldSettleNodes_nonpending cp rest _ k h2

theorem foldSettleNodes_settled_at (cp : List Nat → PeerObj) {k : List Nat} {p : PeerObj} :
    ∀ (ks : List (List Nat)) (s : NetState),
      getNodeSlot k s = some (NodeSlot.settled p) →
      getNodeSlot k (ks.foldl (fun st k' => settleNode cp k' st) s) =
        some (NodeSlot.settled p)
  | [], _, h => h
  | k0 :: rest, s, h => by
      rw [List.foldl_cons]
      exact foldSettleNodes_settled_at cp rest _ (settleNode_settled_at cp k0 h)

theorem settleAllNodes_links (cp : List Nat → PeerObj) (s : NetState) :
    (settleAllNodes cp s).links = s.links := by
  unfold settleAllNodes
  exact foldSettleNodes_links cp (s.nodes.map (fun n => n.1)) s

theorem settleAllNodes_streams (cp : List Nat → PeerObj) (s : NetState) :
    (settleAllNodes cp s).streams = s.streams := by
  unfold settleAllNodes
  exact foldSettleNodes_streams cp (s.nodes.map (fun n => n.1)) s

theorem settleAllNodes_keys (cp : List Nat → PeerObj) (s : NetState) :
    (settleAllNodes cp s).nodes.map (fun n => n.1) = s.nodes.map (fun n => n.1) := by
  unfold settleAllNodes
  exact foldSettleNodes_keys cp (s.nodes.map (fun n => n.1)) s

theorem settleAllNodes_nonpending (cp : List Nat → PeerObj) (s : NetState)
    (hnd : (s.nodes.map (fun n => n.1)).Nodup) :
    ∀ p ∈ (settleAllNodes cp s).nodes, p.2.isPending = false := by
  intro p hp
  have hkeys := settleAllNodes_keys cp s
  have hnd' : ((settleAllNodes cp s).nodes.map (fun n => n.1)).Nodup := by
    rw [hkeys]; exact hnd
  have hslot := getNodeSlot_of_nodup hnd' hp
  have hkmem : p.1 ∈ s.nodes.map (fun n => n.1) := by
    rw [← hkeys]; exact List.mem_map.2 ⟨p, hp, rfl⟩
  unfold settleAllNodes at hslot
  exact foldSettleNodes_nonpending cp (s.nodes.map (fun n => n.1)) s p.1 hkmem p.2 hslot

theorem firstNodeError_none (s : NetState) (h : firstNodeError s = none) :
    ∀ p ∈ s.nodes, ∀ e, p.2 ≠ NodeSlot.failed e := by
  intro p hp e hfe
  unfold firstNodeError at h
  have := List.findSome?_eq_none_iff.1 h p hp
  rw [hfe] at this
  cases this

theorem firstLinkError_none (s : NetState) (h : firstLinkError s = none) :
    ∀ l ∈ s.links, ∀ e, l.slot ≠ LinkSlot.failed e := by
  intro l hl e hfe
  unfold firstLinkError at h
  have := List.findSome?_eq_none_iff.1 h l hl
  rw [hfe] at this
  cases this

theorem nodeSlot_settled_of (sl : NodeSlot) (h1 : sl.isPending = false)
    (h2 : ∀ e, sl ≠ NodeSlot.failed e) : sl.isSettled = true := by
  cases sl with
  | pending raw => cases h1
  | settled p => rfl
  | failed e => exact absurd rfl (h2 e)

theorem linkSlot_settled_of (sl : LinkSlot) (h1 : sl ≠ LinkSlot.pending)
    (h2 : ∀ e, sl ≠ LinkSlot.failed e) : sl.isSettled = true := by
  cases sl with
  | pending => exact absurd rfl h1
  | settled sid => rfl
  | failed e => exact absurd rfl (h2 e)

/-! ## the build-phase state invariant -/

theorem stateInv_empty : StateInv emptyNet := by
  refine ⟨List.nodup_nil, List.nodup_nil, ?_, ?_⟩ <;> intro l hl <;> cases hl

theorem any_map_through {α β : Type} (f : α → β) (p : β → Bool) :
    ∀ l : List α, (l.map f).any p = l.any (fun a => p (f a))
  | [] => rfl
  | a :: rest => by simp [List.any_cons, any_map_through f p rest]

theorem hasNode_eq_keys_any (k : List Nat) (s : NetState) :
    hasNode k s = (s.nodes.map (fun n => n.1)).any (fun x => x == k) := by
  unfold hasNode
  rw [any_map_through]

theorem hasNode_congr_keys {s1 s2 : NetState}
    (h : s1.nodes.map (fun n => n.1) = s2.nodes.map (fun n => n.1)) (k : List Nat) :
    hasNode k s1 = hasNode k s2 := by
  rw [hasNode_eq_keys_any, hasNode_eq_keys_any, h]

theorem nextLink_graphAddNode (k : List Nat) (sl : NodeSlot) (s : NetState) :
    (graphAddNode k sl s).nextLink = s.nextLink := by
  unfold graphAddNode; split <;> rfl

theorem addPeer_links (id : JSVal) (s : NetState) : ((addPeer id s).2).links = s.links := by
  cases id with
  | buffer bytes => exact links_graphAddNode _ _ s
  | str t => rfl

theorem addPeer_nextLink (id : JSVal) (s : NetState) :
    ((addPeer id s).2).nextLink = s.nextLink := by
  cases id with
  | buffer bytes => exact nextLink_graphAddNode _ _ s
  | str t => rfl

theorem addPeer_hasNode_mono (id : JSVal) {k : List Nat} {s : NetState}
    (h : hasNode k s = true) : hasNode k ((addPeer id s).2) = true := by
  cases id with
  | buffer bytes => exact hasNode_graphAddNode_mono h
  | str t => exact h

theorem addPeer_hasNode_self (bytes : List Nat) (s : NetState) :
    hasNode (toHex bytes) ((addPeer (JSVal.buffer bytes) s).2) = true :=
  hasNode_graphAddNode_self _ _ s

theorem addPeer_nodupKeys (id : JSVal) {s : NetState}
    (h : (s.nodes.map (fun n => n.1)).Nodup) :
    (((addPeer id s).2).nodes.map (fun n => n.1)).Nodup := by
  cases id with
  | buffer bytes => exact nodupKeys_graphAddNode h
  | str t => exact h

theorem stateInv_addPeer (id : JSVal) {s : NetState} (h : StateInv s) :
    StateInv ((addPeer id s).2) := by
  obtain ⟨h1, h2, h3, h4⟩ := h
  refine ⟨addPeer_nodupKeys id h1, ?_, ?_, ?_⟩
  · rw [addPeer_links]; exact h2
  · rw [addPeer_links, addPeer_nextLink]; exact h3
  · rw [addPeer_links]
    intro l hl
    exact ⟨addPeer_hasNode_mono id (h4 l hl).1, addPeer_hasNode_mono id (h4 l hl).2⟩

theorem stateInv_addConnection (fromV toV : JSVal) {s : NetState} (h : StateInv s) :
    StateInv ((addConnection fromV toV s).2) := by
  cases fromV with
  | str t => exact h
  | buffer fromBytes =>
    cases toV with
    | str t => exact h
    | buffer toBytes =>
      unfold addConnection
      simp only []
      set s1 := if hasNode (toHex fromBytes) s then s else (addPeer (JSVal.buffer fromBytes) s).2 with hs1
      set s2 := if hasNode (toHex toBytes) s1 then s1 else (addPeer (JSVal.buffer toBytes) s1).2 with hs2
      have hinv1 : StateInv s1 := by
        rw [hs1]; split
        · exact h
        · exact stateInv_addPeer _ h
      have hinv2 : StateInv s2 := by
        rw [hs2]; split
        · exact hinv1
        · exact stateInv_addPeer _ hinv1
      have hfrom1 : hasNode (toHex fromBytes) s1 = true := by
        rw [hs1]; split
        · assumption
        · exact addPeer_hasNode_self fromBytes s
      have hfrom2 : hasNode (toHex fromBytes) s2 = true := by
        rw [hs2]; split
        · exact hfrom1
        · exact addPeer_hasNode_mono _ hfrom1
      have hto2 : hasNode (toHex toBytes) s2 = true := by
        rw [hs2]; split
        · assumption
        · exact addPeer_hasNode_self toBytes s1
      obtain ⟨h1, h2, h3, h4⟩ := hinv2
      refine ⟨h1, ?_, ?_, ?_⟩
      · unfold graphAddLink
        simp only [List.map_append, List.map_cons, List.map_nil]
        rw [List.nodup_append]
        refine ⟨h2, List.nodup_singleton _, ?_⟩
        intro a ha hb
        simp only [List.mem_singleton] at hb
        subst hb
        obtain ⟨l, hl, he⟩ := List.mem_map.1 ha
        exact absurd (he ▸ h3 l hl) (lt_irrefl _)
      · unfold graphAddLink
        intro l hl
        rcases List.mem_append.1 hl with hold | hnew
        · exact Nat.lt_succ_of_lt (h3 l hold)
        · simp only [List.mem_singleton] at hnew
          subst hnew
          exact Nat.lt_succ_self _
      · unfold graphAddLink
        intro l hl
        rcases List.mem_append.1 hl with hold | hnew
        · exact h4 l hold
        · simp only [List.mem_singleton] at hnew
          subst hnew
          exact ⟨hfrom2, hto2⟩

theorem stateInv_runOp (ids : Nat → List Nat) (op : BuildOp) {s : NetState}
    (h : StateInv s) : StateInv (runOp ids s op) := by
  cases op with
  | addNode i => exact stateInv_addPeer _ h
  | addLink i j => exact stateInv_addConnection _ _ h

theorem stateInv_runOps (ids : Nat → List Nat) :
    ∀ (ops : List BuildOp) (s : NetState), StateInv s → StateInv (runOps ids ops s)
  | [], _, h => h
  | op :: rest, s, h => by
      unfold runOps
      rw [List.foldl_cons]
      exact stateInv_runOps ids rest _ (stateInv_runOp ids op h)

/-! ## lemmas: setLinkSlot, findLink, settleLink -/

theorem setLinkSlot_nodes (lid : Nat) (slot : LinkSlot) (s : NetState) :
    (setLinkSlot lid slot s).nodes = s.nodes := rfl

theorem setLinkSlot_streams (lid : Nat) (slot : LinkSlot) (s : NetState) :
    (setLinkSlot lid slot s).streams = s.streams := rfl

theorem links_find?_map_update (lid : Nat) (slot : LinkSlot) :
    ∀ ls : List Link,
      (ls.map (fun l => if l.lid == lid then { l with slot := slot } else l)).find?
          (fun l => l.lid == lid) =
        (ls.find? (fun l => l.lid == lid)).map (fun l => { l with slot := slot })
  | [] => rfl
  | a :: rest => by
      by_cases h : a.lid = lid
      · rw [List.map_cons, if_pos (by simp [h]), List.find?_cons_of_pos _ (by simp [h]),
            List.find?_cons_of_pos _ (by simp [h])]
        simp
      · rw [List.map_cons, if_neg (by simp [h]), List.find?_cons_of_neg _ (by simp [h]),
            List.find?_cons_of_neg _ (by simp [h])]
        exact links_find?_map_update lid slot rest

theorem links_find?_map_update_other (lid lid' : Nat) (slot : LinkSlot) (h : lid' ≠ lid) :
    ∀ ls : List Link,
      (ls.map (fun l => if l.lid == lid then { l with slot := slot } else l)).find?
          (fun l => l.lid == lid') =
        ls.find? (fun l => l.lid == lid')
  | [] => rfl
  | a :: rest => by
      by_cases ha : a.lid = lid
      · rw [List.map_cons, if_pos (by simp [ha]),
            List.find?_cons_of_neg _ (by simp [ha]; exact Ne.symm h),
            List.find?_cons_of_neg _ (by simp [ha]; exact Ne.symm h)]
        exact links_find?_map_update_other lid lid' slot h rest
      · by_cases hp : a.lid = lid'
        · rw [List.map_cons, if_neg (by simp [ha]), List.find?_cons_of_pos _ (by simp [hp]),
              List.find?_cons_of_pos _ (by simp [hp])]
        · rw [List.map_cons, if_neg (by simp [ha]), List.find?_cons_of_neg _ (by simp [hp]),
              List.find?_cons_of_neg _ (by simp [hp])]
          exact links_find?_map_update_other lid lid' slot h rest

theorem findLink_setLinkSlot_self {lid : Nat} (slot : LinkSlot) {s : NetState} {l : Link}
    (h : findLink lid s = some l) :
    findLink lid (setLinkSlot lid slot s) = some { l with slot := slot } := by
  unfold findLink setLinkSlot at *
  rw [links_find?_map_update, h]
  rfl

theorem findLink_setLinkSlot_other {lid' lid : Nat} (slot : LinkSlot) (s : NetState)
    (h : lid' ≠ lid) : findLink lid' (setLinkSlot lid slot s) = findLink lid' s := by
  unfold findLink setLinkSlot
  exact links_find?_map_update_other lid lid' slot h s.links

theorem findLink_allocStream (lid : Nat) (s : NetState) :
    findLink lid ((allocStream s).2) = findLink lid s := rfl

theorem skeleton_setLinkSlot (lid : Nat) (slot : LinkSlot) (s : NetState) :
    (setLinkSlot lid slot s).links.map (fun l => (l.lid, l.fromId, l.toId)) =
      s.links.map (fun l => (l.lid, l.fromId, l.toId)) := by
  unfold setLinkSlot
  simp only [List.map_map]
  apply List.map_congr_left
  intro l _
  by_cases hl : l.lid = lid <;> simp [hl]

theorem settleLink_eq_go {lid : Nat} {s : NetState} {l : Link}
    (cc : PeerObj → PeerObj → ConnVal) (hf : findLink lid s = some l) :
    settleLink cc lid s = settleLinkGo cc lid s l := by
  unfold settleLink
  rw [hf]

theorem settleLink_eq_none {lid : Nat} {s : NetState}
    (cc : PeerObj → PeerObj → ConnVal) (hf : findLink lid s = none) :
    settleLink cc lid s = s := by
  unfold settleLink
  rw [hf]

theorem settleLinkGo_shape (cc : PeerObj → PeerObj → ConnVal) (lid : Nat) (s : NetState)
    (l : Link) :
    (settleLinkGo cc lid s l).nodes = s.nodes ∧
    (settleLinkGo cc lid s l).streams = s.streams ∧
    (settleLinkGo cc lid s l).links.map (fun k => (k.lid, k.fromId, k.toId)) =
      s.links.map (fun k => (k.lid, k.fromId, k.toId)) := by
  unfold settleLinkGo
  cases l.slot with
  | pending =>
      cases getNodeSlot l.fromId s with
      | none =>
          cases getNodeSlot l.toId s with
          | none => exact ⟨rfl, rfl, rfl⟩
          | some slt =>
              cases slt <;>
                first
                  | exact ⟨rfl, rfl, rfl⟩
                  | exact ⟨rfl, rfl, skeleton_setLinkSlot _ _ _⟩
      | some slf =>
          cases slf with
          | pending raw =>
              cases getNodeSlot l.toId s with
              | none => exact ⟨rfl, rfl, rfl⟩
              | some slt =>
                  cases slt <;>
                    first
                      | exact ⟨rfl, rfl, rfl⟩
                      | exact ⟨rfl, rfl, skeleton_setLinkSlot _ _ _⟩
          | failed e =>
              cases getNodeSlot l.toId s with
              | none => exact ⟨rfl, rfl, skeleton_setLinkSlot _ _ _⟩
              | some slt =>
                  cases slt <;> exact ⟨rfl, rfl, skeleton_setLinkSlot _ _ _⟩
          | settled pf =>
              cases getNodeSlot l.toId s with
              | none => exact ⟨rfl, rfl, rfl⟩
              | some slt =>
                  cases slt with
                  | pending raw => exact ⟨rfl, rfl, rfl⟩
                  | failed e => exact ⟨rfl, rfl, skeleton_setLinkSlot _ _ _⟩
                  | settled pt =>
                      simp only [connectionOrDefault]
                      cases cc pf pt <;>
                        exact ⟨rfl, rfl, skeleton_setLinkSlot _ _ _⟩
  | settled sid => exact ⟨rfl, rfl, rfl⟩
  | failed e => exact ⟨rfl, rfl, rfl⟩

theorem settleLink_nodes (cc : PeerObj → PeerObj → ConnVal) (lid : Nat) (s : NetState) :
    (settleLink cc lid s).nodes = s.nodes := by
  cases hf : findLink lid s with
  | none => rw [settleLink_eq_none cc hf]
  | some l => rw [settleLink_eq_go cc hf]; exact (settleLinkGo_shape cc lid s l).1

theorem settleLink_streams (cc : PeerObj → PeerObj → ConnVal) (lid : Nat) (s : NetState) :
    (settleLink cc lid s).streams = s.streams := by
  cases hf : findLink lid s with
  | none => rw [settleLink_eq_none cc hf]
  | some l => rw [settleLink_eq_go cc hf]; exact (settleLinkGo_shape cc lid s l).2.1

theorem skeleton_settleLink (cc : PeerObj → PeerObj → ConnVal) (lid : Nat) (s : NetState) :
    (settleLink cc lid s).links.map (fun l => (l.lid, l.fromId, l.toId)) =
      s.links.map (fun l => (l.lid, l.fromId, l.toId)) := by
  cases hf : findLink lid s with
  | none => rw [settleLink_eq_none cc hf]
  | some l => rw [settleLink_eq_go cc hf]; exact (settleLinkGo_shape cc lid s l).2.2

/-! ## lemmas: non-pending link payloads after settlement -/

theorem hasNode_congr_nodes {s1 s2 : NetState} (h : s1.nodes = s2.nodes) (k : List Nat) :
    hasNode k s1 = hasNode k s2 := by
  unfold hasNode
  rw [h]

theorem getNodeSlot_congr_nodes {s1 s2 : NetState} (h : s1.nodes = s2.nodes) (k : List Nat) :
    getNodeSlot k s1 = getNodeSlot k s2 := by
  unfold getNodeSlot
  rw [h]

theorem getNodeSlot_nonpending {k : List Nat} {s : NetState} {sl : NodeSlot}
    (hnp : NodesReady s) (h : getNodeSlot k s = some sl) : sl.isPending = false := by
  unfold getNodeSlot at h
  cases hf : s.nodes.find? (fun n => n.1 == k) with
  | none => rw [hf] at h; cases h
  | some n =>
      rw [hf] at h
      have h' : some n.2 = some sl := h
      injection h' with he
      rw [← he]
      exact hnp n (List.mem_of_find?_eq_some hf)

theorem getNodeSlot_some_of_hasNode {k : List Nat} {s : NetState}
    (h : hasNode k s = true) : ∃ sl, getNodeSlot k s = some sl := by
  have := getNodeSlot_isSome k s
  rw [h] at this
  exact Option.isSome_iff_exists.1 this

theorem settleLinkGo_eq_of_nonpending (cc : PeerObj → PeerObj → ConnVal) (lid : Nat)
    (s : NetState) (l : Link) (h : l.slot ≠ LinkSlot.pending) :
    settleLinkGo cc lid s l = s := by
  unfold settleLinkGo
  cases hsl : l.slot with
  | pending => exact absurd hsl h
  | settled sid => rfl
  | failed e => rfl

theorem settleLink_nonpending_self (cc : PeerObj → PeerObj → ConnVal) (lid : Nat)
    (s : NetState) (hnp : NodesReady s) (hends : LinkEndsP s) :
    ∀ l', findLink lid (settleLink cc lid s) = some l' → l'.slot ≠ LinkSlot.pending := by
  intro l' h'
  cases hf : findLink lid s with
  | none =>
      rw [settleLink_eq_none cc hf, hf] at h'
      cases h'
  | some l =>
      rw [settleLink_eq_go cc hf] at h'
      have hmem : l ∈ s.links := List.mem_of_find?_eq_some hf
      by_cases hsl : l.slot = LinkSlot.pending
      · obtain ⟨slf, hslf⟩ := getNodeSlot_some_of_hasNode (hends l hmem).1
        obtain ⟨slt, hslt⟩ := getNodeSlot_some_of_hasNode (hends l hmem).2
        have hnpf := getNodeSlot_nonpending hnp hslf
        have hnpt := getNodeSlot_nonpending hnp hslt
        unfold settleLinkGo at h'
        rw [hsl, hslf, hslt] at h'
        cases slf with
        | pending raw => cases hnpf
        | failed e =>
            cases slt with
            | pending raw => cases hnpt
            | settled pt =>
                have h'' : findLink lid (setLinkSlot lid (LinkSlot.failed e) s) = some l' := h'
                rw [findLink_setLinkSlot_self _ hf] at h''
                injection h'' with he
                rw [← he]
                intro hc
                cases hc
            | failed e2 =>
                have h'' : findLink lid (setLinkSlot lid (LinkSlot.failed e) s) = some l' := h'
                rw [findLink_setLinkSlot_self _ hf] at h''
                injection h'' with he
                rw [← he]
                intro hc
                cases hc
        | settled pf =>
            cases slt with
            | pending raw => cases hnpt
            | failed e =>
                have h'' : findLink lid (setLinkSlot lid (LinkSlot.failed e) s) = some l' := h'
                rw [findLink_setLinkSlot_self _ hf] at h''
                injection h'' with he
                rw [← he]
                intro hc
                cases hc
            | settled pt =>
                simp only [connectionOrDefault] at h'
                cases hcv : cc pf pt with
                | stream =>
                    rw [hcv] at h'
                    have h'' : findLink lid
                        (setLinkSlot lid (LinkSlot.settled (allocStream s).1)
                          (allocStream s).2) = some l' := h'
                    have hf2 : findLink lid ((allocStream s).2) = some l := hf
                    rw [findLink_setLinkSlot_self _ hf2] at h''
                    injection h'' with he
                    rw [← he]
                    intro hc
                    cases hc
                | nil =>
                    rw [hcv] at h'
                    have h'' : findLink lid
                        (setLinkSlot lid (LinkSlot.failed JsError.createConnectionNotStream) s) =
                          some l' := h'
                    rw [findLink_setLinkSlot_self _ hf] at h''
                    injection h'' with he
                    rw [← he]
                    intro hc
                    cases hc
                | notStream =>
                    rw [hcv] at h'
                    have h'' : findLink lid
                        (setLinkSlot lid (LinkSlot.failed JsError.createConnectionNotStream) s) =
                          some l' := h'
                    rw [findLink_setLinkSlot_self _ hf] at h''
                    injection h'' with he
                    rw [← he]
                    intro hc
                    cases hc
      · rw [settleLinkGo_eq_of_nonpending cc lid s l hsl, hf] at h'
        injection h' with he
        rw [← he]
        exact hsl

theorem settleLinkGo_cases (cc : PeerObj → PeerObj → ConnVal) (lid : Nat) (s : NetState)
    (l : Link) :
    settleLinkGo cc lid s l = s ∨
    (∃ sl, settleLinkGo cc lid s l = setLinkSlot lid sl s) ∨
    (∃ sl, settleLinkGo cc lid s l = setLinkSlot lid sl ((allocStream s).2)) := by
  unfold settleLinkGo
  cases l.slot with
  | pending =>
      cases getNodeSlot l.fromId s with
      | none =>
          cases getNodeSlot l.toId s with
          | none => exact Or.inl rfl
          | some slt =>
              cases slt with
              | pending raw => exact Or.inl rfl
              | settled pt => exact Or.inl rfl
              | failed e => exact Or.inr (Or.inl ⟨_, rfl⟩)
      | some slf =>
          cases slf with
          | pending raw =>
              cases getNodeSlot l.toId s with
              | none => exact Or.inl rfl
              | some slt =>
                  cases slt with
                  | pending raw2 => exact Or.inl rfl
                  | settled pt => exact Or.inl rfl
                  | failed e => exact Or.inr (Or.inl ⟨_, rfl⟩)
          | failed e =>
              cases getNodeSlot l.toId s with
              | none => exact Or.inr (Or.inl ⟨_, rfl⟩)
              | some slt => cases slt <;> exact Or.inr (Or.inl ⟨_, rfl⟩)
          | settled pf =>
              cases getNodeSlot l.toId s with
              | none => exact Or.inl rfl
              | some slt =>
                  cases slt with
                  | pending raw => exact Or.inl rfl
                  | failed e => exact Or.inr (Or.inl ⟨_, rfl⟩)
                  | settled pt =>
                      simp only [connectionOrDefault]
                      cases cc pf pt with
                      | stream => exact Or.inr (Or.inr ⟨_, rfl⟩)
                      | nil => exact Or.inr (Or.inl ⟨_, rfl⟩)
                      | notStream => exact Or.inr (Or.inl ⟨_, rfl⟩)
  | settled sid => exact Or.inl rfl
  | failed e => exact Or.inl rfl

theorem findLink_settleLink_other (cc : PeerObj → PeerObj → ConnVal) {lid' lid : Nat}
    (s : NetState) (h : lid' ≠ lid) :
    findLink lid' (settleLink cc lid s) = findLink lid' s := by
  cases hf : findLink lid s with
  | none => rw [settleLink_eq_none cc hf]
  | some l =>
      rw [settleLink_eq_go cc hf]
      rcases settleLinkGo_cases cc lid s l with hc | ⟨sl, hc⟩ | ⟨sl, hc⟩
      · rw [hc]
      · rw [hc, findLink_setLinkSlot_other sl s h]
      · rw [hc, findLink_setLinkSlot_other sl ((allocStream s).2) h]
        rfl

theorem settleLink_nonpending_preserved (cc : PeerObj → PeerObj → ConnVal) (lid'' : Nat)
    {lid : Nat} {s : NetState}
    (h : ∀ l', findLink lid s = some l' → l'.slot ≠ LinkSlot.pending) :
    ∀ l', findLink lid (settleLink cc lid'' s) = some l' → l'.slot ≠ LinkSlot.pending := by
  by_cases he : lid = lid''
  · subst he
    intro l' h'
    cases hf : findLink lid s with
    | none => rw [settleLink_eq_none cc hf, hf] at h'; cases h'
    | some l =>
        have hl := h l hf
        rw [settleLink_eq_go cc hf, settleLinkGo_eq_of_nonpending cc lid s l hl, hf] at h'
        injection h' with hle
        rw [← hle]
        exact hl
  · intro l' h'
    rw [findLink_settleLink_other cc s he] at h'
    exact h l' h'

theorem nodesReady_settleLink (cc : PeerObj → PeerObj → ConnVal) (lid : Nat) {s : NetState}
    (h : NodesReady s) : NodesReady (settleLink cc lid s) := by
  unfold NodesReady
  rw [settleLink_nodes]
  exact h

theorem ends_mem_of_skeleton {ls1 ls2 : List Link}
    (h : ls1.map (fun k => (k.lid, k.fromId, k.toId)) =
         ls2.map (fun k => (k.lid, k.fromId, k.toId)))
    {l : Link} (hl : l ∈ ls1) :
    ∃ l2 ∈ ls2, l2.fromId = l.fromId ∧ l2.toId = l.toId := by
  have hmem : (l.lid, l.fromId, l.toId) ∈
      ls2.map (fun k => (k.lid, k.fromId, k.toId)) := by
    rw [← h]
    exact List.mem_map.2 ⟨l, hl, rfl⟩
  obtain ⟨l2, hl2, he⟩ := List.mem_map.1 hmem
  refine ⟨l2, hl2, ?_, ?_⟩
  · exact congrArg (fun t => t.2.1) he
  · exact congrArg (fun t => t.2.2) he

theorem linkEnds_settleLink (cc : PeerObj → PeerObj → ConnVal) (lid : Nat) {s : NetState}
    (h : LinkEndsP s) : LinkEndsP (settleLink cc lid s) := by
  unfold LinkEndsP
  intro l hl
  obtain ⟨l2, hl2, hef, het⟩ := ends_mem_of_skeleton (skeleton_settleLink cc lid s) hl
  have h2 := h l2 hl2
  rw [← hef, ← het]
  rw [hasNode_congr_nodes (settleLink_nodes cc lid s), hasNode_congr_nodes (settleLink_nodes cc lid s)]
  exact h2

theorem foldSettleLinks_nodes (cc : PeerObj → PeerObj → ConnVal) :
    ∀ (lids : List Nat) (s : NetState),
      (lids.foldl (fun st x => settleLink cc x st) s).nodes = s.nodes
  | [], _ => rfl
  | x :: rest, s => by
      rw [List.foldl_cons, foldSettleLinks_nodes cc rest (settleLink cc x s),
          settleLink_nodes]

theorem foldSettleLinks_streams (cc : PeerObj → PeerObj → ConnVal) :
    ∀ (lids : List Nat) (s : NetState),
      (lids.foldl (fun st x => settleLink cc x st) s).streams = s.streams
  | [], _ => rfl
  | x :: rest, s => by
      rw [List.foldl_cons, foldSettleLinks_streams cc rest (settleLink cc x s),
          settleLink_streams]

theorem foldSettleLinks_skeleton (cc : PeerObj → PeerObj → ConnVal) :
    ∀ (lids : List Nat) (s : NetState),
      (lids.foldl (fun st x => settleLink cc x st) s).links.map
          (fun l => (l.lid, l.fromId, l.toId)) =
        s.links.map (fun l => (l.lid, l.fromId, l.toId))
  | [], _ => rfl
  | x :: rest, s => by
      rw [List.foldl_cons, foldSettleLinks_skeleton cc rest (settleLink cc x s),
          skeleton_settleLink]

theorem foldSettleLinks_preserves_nonpending_at (cc : PeerObj → PeerObj → ConnVal)
    (lid : Nat) :
    ∀ (lids : List Nat) (s : NetState),
      (∀ l', findLink lid s = some l' → l'.slot ≠ LinkSlot.pending) →
      ∀ l', findLink lid (lids.foldl (fun st x => settleLink cc x st) s) = some l' →
        l'.slot ≠ LinkSlot.pending
  | [], _, h => h
  | x :: rest, s, h => by
      rw [List.foldl_cons]
      exact foldSettleLinks_preserves_nonpending_at cc lid rest _
        (settleLink_nonpending_preserved cc x h)

theorem foldSettleLinks_nonpending (cc : PeerObj → PeerObj → ConnVal) :
    ∀ (lids : List Nat) (s : NetState), NodesReady s → LinkEndsP s →
      ∀ lid ∈ lids, ∀ l',
        findLink lid (lids.foldl (fun st x => settleLink cc x st) s) = some l' →
          l'.slot ≠ LinkSlot.pending
  | [], _, _, _, lid, hlid => absurd hlid (List.not_mem_nil lid)
  | x :: rest, s, hnp, hends, lid, hlid => by
      rw [List.foldl_cons]
      by_cases he : lid = x
      · subst he
        exact foldSettleLinks_preserves_nonpending_at cc lid rest _
          (settleLink_nonpending_self cc lid s hnp hends)
      · rcases List.mem_cons.1 hlid with h1 | h2
        · exact absurd h1 he
        · exact foldSettleLinks_nonpending cc rest _
            (nodesReady_settleLink cc x hnp) (linkEnds_settleLink cc x hends) lid h2

theorem settleAllLinks_nodes (cc : PeerObj → PeerObj → ConnVal) (s : NetState) :
    (settleAllLinks cc s).nodes = s.nodes := by
  unfold settleAllLinks
  exact foldSettleLinks_nodes cc (s.links.map (fun l => l.lid)) s

theorem settleAllLinks_streams (cc : PeerObj → PeerObj → ConnVal) (s : NetState) :
    (settleAllLinks cc s).streams = s.streams := by
  unfold settleAllLinks
  exact foldSettleLinks_streams cc (s.links.map (fun l => l.lid)) s

theorem settleAllLinks_skeleton (cc : PeerObj → PeerObj → ConnVal) (s : NetState) :
    (settleAllLinks cc s).links.map (fun l => (l.lid, l.fromId, l.toId)) =
      s.links.map (fun l => (l.lid, l.fromId, l.toId)) := by
  unfold settleAllLinks
  exact foldSettleLinks_skeleton cc (s.links.map (fun l => l.lid)) s

theorem lids_of_skeleton {ls1 ls2 : List Link}
    (h : ls1.map (fun k => (k.lid, k.fromId, k.toId)) =
         ls2.map (fun k => (k.lid, k.fromId, k.toId))) :
    ls1.map (fun l => l.lid) = ls2.map (fun l => l.lid) := by
  have h1 : ls1.map (fun l => l.lid) =
      (ls1.map (fun k => (k.lid, k.fromId, k.toId))).map (fun t => t.1) := by
    rw [List.map_map]
    rfl
  have h2 : ls2.map (fun l => l.lid) =
      (ls2.map (fun k => (k.lid, k.fromId, k.toId))).map (fun t => t.1) := by
    rw [List.map_map]
    rfl
  rw [h1, h2, h]

theorem findLink_of_nodup {s : NetState} (h : (s.links.map (fun l => l.lid)).Nodup)
    {l : Link} (hm : l ∈ s.links) : findLink l.lid s = some l := by
  unfold findLink
  exact find?_by_key_of_nodup (fun l : Link => l.lid) s.links h l hm

theorem settleAllLinks_nonpending (cc : PeerObj → PeerObj → ConnVal) (s : NetState)
    (hnp : NodesReady s) (hends : LinkEndsP s)
    (hnd : (s.links.map (fun l => l.lid)).Nodup) :
    ∀ l ∈ (settleAllLinks cc s).links, l.slot ≠ LinkSlot.pending := by
  intro l hl
  have hskel := settleAllLinks_skeleton cc s
  have hnd' : ((settleAllLinks cc s).links.map (fun l => l.lid)).Nodup := by
    rw [lids_of_skeleton hskel]
    exact hnd
  have hfind := findLink_of_nodup hnd' hl
  have hlidmem : l.lid ∈ s.links.map (fun l => l.lid) := by
    rw [← lids_of_skeleton hskel]
    exact List.mem_map.2 ⟨l, hl, rfl⟩
  unfold settleAllLinks at hfind
  exact foldSettleLinks_nonpending cc (s.links.map (fun l => l.lid)) s hnp hends
    l.lid hlidmem l hfind

/-! ## lemmas: topology build inversion -/

theorem buildTopology_ok_state {cp : List Nat → PeerObj} {cc : PeerObj → PeerObj → ConnVal}
    {ids : Nat → List Nat} {ops : List BuildOp} {s : NetState}
    (h : buildTopology cp cc ids ops = Except.ok s) :
    s = settleAllLinks cc (settleAllNodes cp (runOps ids ops emptyNet)) ∧
    firstNodeError (settleAllNodes cp (runOps ids ops emptyNet)) = none ∧
    firstLinkError (settleAllLinks cc (settleAllNodes cp (runOps ids ops emptyNet))) = none := by
  unfold buildTopology at h
  have h' : (match firstNodeError (settleAllNodes cp (runOps ids ops emptyNet)) with
      | some e => Except.error e
      | none =>
          match firstLinkError
              (settleAllLinks cc (settleAllNodes cp (runOps ids ops emptyNet))) with
          | some e => Except.error e
          | none =>
              Except.ok (settleAllLinks cc (settleAllNodes cp (runOps ids ops emptyNet)))) =
        Except.ok s := h
  cases hne : firstNodeError (settleAllNodes cp (runOps ids ops emptyNet)) with
  | some e => rw [hne] at h'; cases h'
  | none =>
      rw [hne] at h'
      cases hle : firstLinkError
          (settleAllLinks cc (settleAllNodes cp (runOps ids ops emptyNet))) with
      | some e => rw [hle] at h'; cases h'
      | none =>
          rw [hle] at h'
          injection h' with he
          exact ⟨he.symm, rfl, rfl⟩

theorem nodesReady_settleAllNodes (cp : List Nat → PeerObj) (s : NetState)
    (hnd : (s.nodes.map (fun n => n.1)).Nodup) : NodesReady (settleAllNodes cp s) :=
  settleAllNodes_nonpending cp s hnd

theorem linkEnds_settleAllNodes (cp : List Nat → PeerObj) (s : NetState)
    (hends : LinkEndsP s) : LinkEndsP (settleAllNodes cp s) := by
  intro l hl
  rw [settleAllNodes_links] at hl
  have h2 := hends l hl
  rw [hasNode_congr_keys (settleAllNodes_keys cp s),
      hasNode_congr_keys (settleAllNodes_keys cp s)]
  exact h2

/-! ## claim C1 -/

/-- C1: for every topology-build invocation of the NetworkGenerator, when the
returned promise resolves, every peer payload and every connection payload
created during the build is settled (none pending), so `network.peers.length`
and `network.connections.length` already equal their final values — the
counts registered by the build's synchronous phase. -/
theorem buildTopology_settled_and_final (cp : List Nat → PeerObj)
    (cc : PeerObj → PeerObj → ConnVal) (ids : Nat → List Nat) (ops : List BuildOp)
    (s : NetState) (h : buildTopology cp cc ids ops = Except.ok s) :
    ((peers s).all (fun sl => sl.isSettled) = true) ∧
    ((connections s).all (fun c => c.stream.isSettled) = true) ∧
    (peers s).length = (peers (runOps ids ops emptyNet)).length ∧
    (connections s).length = (connections (runOps ids ops emptyNet)).length := by
  obtain ⟨hs, hne, hle⟩ := buildTopology_ok_state h
  subst hs
  obtain ⟨hndk, hndl, hbound, hends0⟩ := stateInv_runOps ids ops emptyNet stateInv_empty
  have hnp1 : NodesReady (settleAllNodes cp (runOps ids ops emptyNet)) :=
    nodesReady_settleAllNodes cp _ hndk
  have hends1 : LinkEndsP (settleAllNodes cp (runOps ids ops emptyNet)) :=
    linkEnds_settleAllNodes cp _ hends0
  have hndl1 :
      ((settleAllNodes cp (runOps ids ops emptyNet)).links.map (fun l => l.lid)).Nodup := by
    rw [settleAllNodes_links]
    exact hndl
  have hnodes2 : (settleAllLinks cc (settleAllNodes cp (runOps ids ops emptyNet))).nodes =
      (settleAllNodes cp (runOps ids ops emptyNet)).nodes := settleAllLinks_nodes cc _
  refine ⟨?_, ?_, ?_, ?_⟩
  · rw [List.all_eq_true]
    intro sl hsl
    unfold peers at hsl
    obtain ⟨p, hp, he⟩ := List.mem_map.1 hsl
    have hp1 : p ∈ (settleAllNodes cp (runOps ids ops emptyNet)).nodes := by
      rw [← hnodes2]
      exact hp
    have hnonp := hnp1 p hp1
    have hnof := firstNodeError_none _ hne p hp1
    rw [← he]
    exact nodeSlot_settled_of p.2 hnonp hnof
  · rw [List.all_eq_true]
    intro c hc
    unfold connections at hc
    obtain ⟨l, hl, he⟩ := List.mem_map.1 hc
    have hnl := settleAllLinks_nonpending cc _ hnp1 hends1 hndl1 l hl
    have hnf := firstLinkError_none _ hle l hl
    rw [← he]
    exact linkSlot_settled_of l.slot hnl hnf
  · unfold peers
    rw [List.length_map, List.length_map, hnodes2]
    have hlen := congrArg List.length (settleAllNodes_keys cp (runOps ids ops emptyNet))
    rw [List.length_map, List.length_map] at hlen
    exact hlen
  · unfold connections
    rw [List.length_map, List.length_map]
    have hlen := congrArg List.length
      (settleAllLinks_skeleton cc (settleAllNodes cp (runOps ids ops emptyNet)))
    rw [List.length_map, List.length_map] at hlen
    rw [hlen, settleAllNodes_links]

/-- Witness for C1 at a concrete three-node path build with the default
factories. -/
theorem buildTopology_settled_and_final_witness :
    ((peers wS).all (fun sl => sl.isSettled) = true) ∧
    ((connections wS).all (fun c => c.stream.isSettled) = true) ∧
    (peers wS).length = (peers (runOps ids0 ops0 emptyNet)).length ∧
    (connections wS).length = (connections (runOps ids0 ops0 emptyNet)).length :=
  buildTopology_settled_and_final defaultCreatePeer defaultCreateConnection ids0 ops0 wS rfl

/-! ## lemmas: addPeer settlement, addConnection registration, no-assert paths -/

theorem getNodeSlot_mem {k : List Nat} {s : NetState} {sl : NodeSlot}
    (h : getNodeSlot k s = some sl) : ∃ p ∈ s.nodes, p.2 = sl := by
  unfold getNodeSlot at h
  cases hf : s.nodes.find? (fun n => n.1 == k) with
  | none => rw [hf] at h; cases h
  | some n =>
      rw [hf] at h
      have h' : some n.2 = some sl := h
      injection h' with he
      exact ⟨n, List.mem_of_find?_eq_some hf, he⟩

theorem settleNode_eq_pending {k : List Nat} {s : NetState} {raw : List Nat}
    (cp : List Nat → PeerObj) (hg : getNodeSlot k s = some (NodeSlot.pending raw)) :
    settleNode cp k s =
      (if (cp raw).id.isBuffer then graphAddNode k (NodeSlot.settled (cp raw)) s
       else graphAddNode k (NodeSlot.failed JsError.createPeerBadId) s) := by
  unfold settleNode
  rw [hg]

theorem ensureNode_links (v : JSVal) (k : List Nat) (s : NetState) :
    (if hasNode k s then s else (addPeer v s).2).links = s.links := by
  split
  · rfl
  · exact addPeer_links v s

theorem ensureNode_nextLink (v : JSVal) (k : List Nat) (s : NetState) :
    (if hasNode k s then s else (addPeer v s).2).nextLink = s.nextLink := by
  split
  · rfl
  · exact addPeer_nextLink v s

theorem addConnection_links (a b : List Nat) (s : NetState) :
    ((addConnection (JSVal.buffer a) (JSVal.buffer b) s).2).links =
      s.links ++ [⟨s.nextLink, toHex a, toHex b, LinkSlot.pending⟩] := by
  show (graphAddLink (toHex a) (toHex b) LinkSlot.pending
      (if hasNode (toHex b) (if hasNode (toHex a) s then s else (addPeer (JSVal.buffer a) s).2)
       then (if hasNode (toHex a) s then s else (addPeer (JSVal.buffer a) s).2)
       else (addPeer (JSVal.buffer b)
        (if hasNode (toHex a) s then s else (addPeer (JSVal.buffer a) s).2)).2)).links =
    s.links ++ [⟨s.nextLink, toHex a, toHex b, LinkSlot.pending⟩]
  unfold graphAddLink
  rw [ensureNode_links (JSVal.buffer b) (toHex b), ensureNode_links (JSVal.buffer a) (toHex a),
      ensureNode_nextLink (JSVal.buffer b) (toHex b), ensureNode_nextLink (JSVal.buffer a) (toHex a)]

theorem destroyLink_no_assert (l : Link) (s : NetState) :
    (destroyLink l s).1 ≠ some JsError.assertFailed := by
  unfold destroyLink
  split
  all_goals first
    | (split <;> simp)
    | simp

theorem destroyIfMatch_no_assert (f t : List Nat) (l : Link) (s : NetState) :
    (destroyIfMatch f t l s).1 ≠ some JsError.assertFailed := by
  unfold destroyIfMatch
  split
  · rename_i e s1 heq
    split at heq
    · have := destroyLink_no_assert l s
      rw [heq] at this
      exact this
    · injection heq with h1 h2
      cases h1
  · split
    · exact destroyLink_no_assert l _
    · intro hc; cases hc

theorem destroyMatches_no_assert (f t : List Nat) :
    ∀ (L : List Link) (s : NetState),
      (destroyMatches f t L s).1 ≠ some JsError.assertFailed
  | [], _ => by intro hc; cases hc
  | l :: rest, s => by
      unfold destroyMatches
      split
      · exact destroyMatches_no_assert f t rest _
      · rename_i e s1 heq
        have := destroyIfMatch_no_assert f t l s
        rw [heq] at this
        exact this

theorem deleteConnection_no_assert (fromV toV : JSVal) (s : NetState) :
    (deleteConnection fromV toV s).1 ≠ some JsError.assertFailed := by
  show (match destroyMatches fromV.toHexKey toV.toHexKey (linkedLinks fromV.toHexKey s) s with
      | (none, s1) =>
          destroyMatches fromV.toHexKey toV.toHexKey (linkedLinks toV.toHexKey s1) s1
      | (some e, s1) => (some e, s1)).1 ≠ some JsError.assertFailed
  split
  · exact destroyMatches_no_assert _ _ _ _
  · rename_i e s1 heq
    have := destroyMatches_no_assert fromV.toHexKey toV.toHexKey
      (linkedLinks fromV.toHexKey s) s
    rw [heq] at this
    exact this

/-! ## claim C8 -/

/-- C8: whenever a connection's channel reports closed (the end-of-stream
notification fires, regardless of which side initiated the close), the
corresponding edge is removed from the graph: after `fireClose sid`, no link
carries that stream, the `connections` accessor no longer lists it, and the
channel reports closed. -/
theorem fireClose_removes_edge (s : NetState) (sid : Nat) :
    ((fireClose sid s).links.all (fun l => !(l.slot == LinkSlot.settled sid)) = true) ∧
    ((connections (fireClose sid s)).all (fun c => !(c.stream == LinkSlot.settled sid)) = true) ∧
    (((fireClose sid s).streams sid).closed = true) := by
  refine ⟨?_, ?_, ?_⟩
  · rw [List.all_eq_true]
    intro l hl
    exact (List.mem_filter.1 hl).2
  · rw [List.all_eq_true]
    intro c hc
    unfold connections at hc
    obtain ⟨l, hl, he⟩ := List.mem_map.1 hc
    have hmem : l ∈ (fireClose sid s).links := hl
    have := (List.mem_filter.1 hmem).2
    rw [← he]
    exact this
  · unfold fireClose
    simp

/-! ## claim C9 -/

/-- C9 counterexample: immediately after `addPeer` (and after the synchronous
part of `addConnection`), the `peers` and `connections` accessors contain the
still-pending payload promises, so the accessors are not restricted to
settled payloads. -/
theorem accessors_pending_cex :
    ((peers c9s).any (fun sl => sl.isPending) = true) ∧
    ((connections c9s2).any (fun c => c.stream == LinkSlot.pending) = true) := by
  exact ⟨rfl, rfl⟩

/-- C9 amended: the accessors return the current raw payload slots (pending
promises included while a factory is in flight); on a state in which every
registered creation has settled — e.g. a network returned by a topology
build — the snapshots contain settled payloads only, including the endpoint
peers of every connection. -/
theorem accessors_settled_spec (s : NetState)
    (hn : ∀ p ∈ s.nodes, p.2.isSettled = true)
    (hl : ∀ l ∈ s.links, l.slot.isSettled = true)
    (he : LinkEndsP s) :
    ((peers s).all (fun sl => sl.isSettled) = true) ∧
    ((connections s).all (fun c =>
        c.stream.isSettled && settledOpt c.fromPeer && settledOpt c.toPeer) = true) := by
  constructor
  · rw [List.all_eq_true]
    intro sl hsl
    unfold peers at hsl
    obtain ⟨p, hp, hpe⟩ := List.mem_map.1 hsl
    rw [← hpe]
    exact hn p hp
  · rw [List.all_eq_true]
    intro c hc
    unfold connections at hc
    obtain ⟨l, hml, hle⟩ := List.mem_map.1 hc
    obtain ⟨hf, ht⟩ := he l hml
    obtain ⟨slf, hslf⟩ := getNodeSlot_some_of_hasNode hf
    obtain ⟨slt, hslt⟩ := getNodeSlot_some_of_hasNode ht
    obtain ⟨pf, hpf, hpfe⟩ := getNodeSlot_mem hslf
    obtain ⟨pt, hpt, hpte⟩ := getNodeSlot_mem hslt
    rw [← hle]
    show (l.slot.isSettled && settledOpt (getNodeSlot l.fromId s) &&
        settledOpt (getNodeSlot l.toId s)) = true
    rw [hslf, hslt]
    have h1 := hl l hml
    have h2 : slf.isSettled = true := by rw [← hpfe]; exact hn pf hpf
    have h3 : slt.isSettled = true := by rw [← hpte]; exact hn pt hpt
    simp [settledOpt, h1, h2, h3]

/-- Witness for C9's amended statement on a settled two-peer network. -/
theorem accessors_settled_spec_witness :
    ((peers twoPeerNet).all (fun sl => sl.isSettled) = true) ∧
    ((connections twoPeerNet).all (fun c =>
        c.stream.isSettled && settledOpt c.fromPeer && settledOpt c.toPeer) = true) :=
  accessors_settled_spec twoPeerNet (by decide) (by decide)
    (by unfold LinkEndsP; decide)

/-! ## claim C4 -/

/-- C4 counterexample: a factory resolving without a Buffer `id` leaves the
node registered in the graph with its rejected payload (an orphan remains),
while `addPeer`'s own returned promise carries no error; and a factory
resolving with a Buffer `id` different from the registration id (here `[9]`
for registration `[1]`) is accepted without any `MalformedPeer` failure —
byte equality is never checked. -/
theorem addPeer_malformed_cex :
    hasNode (toHex [1]) c4s = true ∧
    getNodeSlot (toHex [1]) c4s = some (NodeSlot.failed JsError.createPeerBadId) ∧
    (addPeer (JSVal.buffer [1]) emptyNet).1 = none ∧
    getNodeSlot (toHex [1]) c4s2 = some (NodeSlot.settled ⟨JSVal.buffer [9]⟩) := by
  exact ⟨rfl, rfl, rfl, rfl⟩

/-- C4 amended: `addPeer` validates only that the factory's value carries a
Buffer `id` (byte equality with the registration id is not checked).  When
the check fails, the node's payload promise rejects with the malformed-peer
error — propagated to whoever awaits the payload — while `addPeer` itself
raises nothing and the node remains registered with the failed payload; when
it passes, the payload settles with the factory's value. -/
theorem addPeer_validation_spec (cp : List Nat → PeerObj) (bytes : List Nat) (s : NetState) :
    (addPeer (JSVal.buffer bytes) s).1 = none ∧
    hasNode (toHex bytes)
      (settleNode cp (toHex bytes) ((addPeer (JSVal.buffer bytes) s).2)) = true ∧
    ((cp bytes).id.isBuffer = false →
      getNodeSlot (toHex bytes)
          (settleNode cp (toHex bytes) ((addPeer (JSVal.buffer bytes) s).2)) =
        some (NodeSlot.failed JsError.createPeerBadId)) ∧
    ((cp bytes).id.isBuffer = true →
      getNodeSlot (toHex bytes)
          (settleNode cp (toHex bytes) ((addPeer (JSVal.buffer bytes) s).2)) =
        some (NodeSlot.settled (cp bytes))) := by
  have hreg : getNodeSlot (toHex bytes) ((addPeer (JSVal.buffer bytes) s).2) =
      some (NodeSlot.pending bytes) := getNodeSlot_graphAddNode_self _ _ s
  refine ⟨rfl, ?_, ?_, ?_⟩
  · rw [settleNode_eq_pending cp hreg]
    split
    · exact hasNode_graphAddNode_self _ _ _
    · exact hasNode_graphAddNode_self _ _ _
  · intro hb
    rw [settleNode_eq_pending cp hreg, if_neg (by rw [hb]; intro hc; cases hc)]
    exact getNodeSlot_graphAddNode_self _ _ _
  · intro hb
    rw [settleNode_eq_pending cp hreg, if_pos hb]
    exact getNodeSlot_graphAddNode_self _ _ _

/-- Witness for C4's amended statement: a factory without a Buffer id leaves
the node registered with the rejected payload. -/
theorem addPeer_validation_spec_witness :
    getNodeSlot (toHex [1])
        (settleNode cpNoId (toHex [1]) ((addPeer (JSVal.buffer [1]) emptyNet).2)) =
      some (NodeSlot.failed JsError.createPeerBadId) :=
  (addPeer_validation_spec cpNoId [1] emptyNet).2.2.1 rfl

/-! ## claim C5 -/

/-- C5 counterexample: in the current source, a second `addConnection` on the
same ordered pair raises nothing and registers a second parallel edge — two
edges remain, not one, and no `DuplicateConnection` error occurs. -/
theorem addConnection_duplicate_cex :
    c5r.1 = none ∧ c5r.2.links.length = 2 := by
  exact ⟨rfl, rfl⟩

/-- C5 amended: the duplicate check exists only in the part_001 revision,
which rejects the second `addConnection` over an existing ordered pair with
the duplicate-connection error and leaves the edge set unchanged; the current
source performs no duplicate check: the second call succeeds and appends one
more edge. -/
theorem addConnection_duplicate_spec (a b : List Nat) (s : NetState)
    (h : hasLinkOrdered (toHex a) (toHex b) s = true) :
    addConnectionV1 (JSVal.buffer a) (JSVal.buffer b) s =
      (some JsError.duplicateConnection, s) ∧
    (addConnection (JSVal.buffer a) (JSVal.buffer b) s).1 = none ∧
    ((addConnection (JSVal.buffer a) (JSVal.buffer b) s).2).links.length =
      s.links.length + 1 := by
  refine ⟨?_, rfl, ?_⟩
  · show (if hasLinkOrdered (toHex a) (toHex b) s then
        ((some JsError.duplicateConnection, s) : Option JsError × NetState)
      else addConnection (JSVal.buffer a) (JSVal.buffer b) s) =
      (some JsError.duplicateConnection, s)
    rw [if_pos h]
  · rw [addConnection_links]
    simp

/-- Witness for C5's amended statement on a state that already has the
ordered edge. -/
theorem addConnection_duplicate_spec_witness :
    addConnectionV1 (JSVal.buffer [1]) (JSVal.buffer [2]) c5s1 =
      (some JsError.duplicateConnection, c5s1) ∧
    (addConnection (JSVal.buffer [1]) (JSVal.buffer [2]) c5s1).1 = none ∧
    ((addConnection (JSVal.buffer [1]) (JSVal.buffer [2]) c5s1).2).links.length =
      c5s1.links.length + 1 :=
  addConnection_duplicate_spec [1] [2] c5s1 (by decide)

/-! ## claim C7 -/

/-- C7: evaluation of the code at the failing input.  The fallback
`|| new PassThrough()` is applied to the Promise returned by the async
wrapper — always truthy — so a `createConnection` factory resolving to
undefined is not replaced by a default pass-through channel; instead the
resolved undefined reaches the stream validation and the connection payload
rejects with the not-a-stream error (`c7s`).  The synchronous revision's
form of the same expression does substitute the default.  A factory
resolving to a non-stream value rejects the same way (`c7s2`). -/
theorem createConnection_nil_rejected :
    connectionOrDefault ConnVal.nil = ConnVal.nil ∧
    connectionOrDefaultSync ConnVal.nil = ConnVal.stream ∧
    (c7s.links.map (fun l => l.slot)) = [LinkSlot.failed JsError.createConnectionNotStream] ∧
    (c7s2.links.map (fun l => l.slot)) = [LinkSlot.failed JsError.createConnectionNotStream] := by
  exact ⟨rfl, rfl, rfl, rfl⟩

/-! ## claim C10 -/

/-- C10: on any argument that is not a byte Buffer, `addPeer`,
`addConnection` (either argument), and `deletePeer` throw the assertion
error before any graph mutation, leaving the state unchanged; while
`deleteConnection` performs no buffer assertion on its arguments — it can
never raise the assertion error. -/
theorem buffer_assertions (v w : JSVal) (s : NetState) (hv : v.isBuffer = false) :
    addPeer v s = (some JsError.assertFailed, s) ∧
    addConnection v w s = (some JsError.assertFailed, s) ∧
    (∀ a : List Nat, addConnection (JSVal.buffer a) v s = (some JsError.assertFailed, s)) ∧
    deletePeer v s = (some JsError.assertFailed, s) ∧
    (deleteConnection v w s).1 ≠ some JsError.assertFailed := by
  cases v with
  | buffer bytes => cases hv
  | str t =>
      refine ⟨rfl, ?_, ?_, rfl, ?_⟩
      · cases w <;> rfl
      · intro a; rfl
      · exact deleteConnection_no_assert _ _ s

/-- Witness for C10 at concrete non-buffer arguments. -/
theorem buffer_assertions_witness :
    addPeer (JSVal.str 0) emptyNet = (some JsError.assertFailed, emptyNet) ∧
    addConnection (JSVal.str 0) (JSVal.str 1) emptyNet = (some JsError.assertFailed, emptyNet) ∧
    addConnection (JSVal.buffer [0]) (JSVal.str 0) emptyNet =
      (some JsError.assertFailed, emptyNet) ∧
    deletePeer (JSVal.str 0) emptyNet = (some JsError.assertFailed, emptyNet) ∧
    (deleteConnection (JSVal.str 0) (JSVal.str 1) emptyNet).1 ≠ some JsError.assertFailed := by
  have h := buffer_assertions (JSVal.str 0) (JSVal.str 1) emptyNet rfl
  exact ⟨h.1, h.2.1, h.2.2.1 [0], h.2.2.2.1, h.2.2.2.2⟩

/-! ## lemmas: link destruction and deletePeer -/

theorem linkSlot_settled_exists {sl : LinkSlot} (h : sl.isSettled = true) :
    ∃ sid, sl = LinkSlot.settled sid := by
  cases sl with
  | settled sid => exact ⟨sid, rfl⟩
  | pending => cases h
  | failed e => cases h

theorem setStreamDestroyed_at (sid : Nat) (s : NetState) :
    ((setStreamDestroyed sid s).streams sid).destroyed = true := by
  unfold setStreamDestroyed
  simp

theorem setStreamDestroyed_other {x sid : Nat} (s : NetState) (h : x ≠ sid) :
    (setStreamDestroyed sid s).streams x = s.streams x := by
  unfold setStreamDestroyed
  simp [h]

theorem destroyLink_ok {l : Link} {sid : Nat} (s : NetState)
    (hs : l.slot = LinkSlot.settled sid) :
    (destroyLink l s).1 = none ∧
    (destroyLink l s).2.nodes = s.nodes ∧
    (destroyLink l s).2.links = s.links ∧
    (((destroyLink l s).2).streams sid).destroyed = true ∧
    (∀ x, (((destroyLink l s).2).streams x).closed = (s.streams x).closed) ∧
    (∀ x, (s.streams x).destroyed = true →
      (((destroyLink l s).2).streams x).destroyed = true) := by
  have heq : destroyLink l s =
      (if (s.streams sid).destroyed = true then (none, s)
       else (none, setStreamDestroyed sid s)) := by
    unfold destroyLink
    rw [hs]
  rw [heq]
  by_cases hd : (s.streams sid).destroyed = true
  · rw [if_pos hd]
    exact ⟨rfl, rfl, rfl, hd, fun x => rfl, fun x h => h⟩
  · rw [if_neg hd]
    refine ⟨rfl, rfl, rfl, setStreamDestroyed_at sid s, ?_, ?_⟩
    · intro x
      by_cases hx : x = sid
      · subst hx
        unfold setStreamDestroyed
        simp
      · rw [setStreamDestroyed_other s hx]
    · intro x h
      by_cases hx : x = sid
      · rw [hx]
        exact setStreamDestroyed_at sid s
      · rw [setStreamDestroyed_other s hx]
        exact h

theorem destroyLinks_ok :
    ∀ (L : List Link) (s : NetState), (∀ l ∈ L, l.slot.isSettled = true) →
      (destroyLinks L s).1 = none ∧
      (destroyLinks L s).2.nodes = s.nodes ∧
      (destroyLinks L s).2.links = s.links ∧
      (∀ x, (((destroyLinks L s).2).streams x).closed = (s.streams x).closed) ∧
      (∀ x, (s.streams x).destroyed = true →
        (((destroyLinks L s).2).streams x).destroyed = true) ∧
      (∀ l ∈ L, ∀ sid, l.slot = LinkSlot.settled sid →
        (((destroyLinks L s).2).streams sid).destroyed = true)
  | [], s, _ =>
      ⟨rfl, rfl, rfl, fun _ => rfl, fun _ h => h,
       fun l hl => absurd hl (List.not_mem_nil l)⟩
  | l :: rest, s, hset => by
      obtain ⟨sid, hsid⟩ := linkSlot_settled_exists (hset l (List.mem_cons_self l rest))
      obtain ⟨d1, d2, d3, d4, d5, d6⟩ := destroyLink_ok s hsid
      rcases hDL : destroyLink l s with ⟨err, s1⟩
      rw [hDL] at d1 d2 d3 d4 d5 d6
      have herr : err = none := d1
      subst herr
      have hstep : destroyLinks (l :: rest) s = destroyLinks rest s1 := by
        show (match destroyLink l s with
              | (none, s1) => destroyLinks rest s1
              | (some e, s1) => (some e, s1)) = destroyLinks rest s1
        rw [hDL]
      obtain ⟨i1, i2, i3, i4, i5, i6⟩ := destroyLinks_ok rest s1
        (fun l' hl' => hset l' (List.mem_cons_of_mem l hl'))
      rw [hstep]
      refine ⟨i1, ?_, ?_, ?_, ?_, ?_⟩
      · rw [i2]; exact d2
      · rw [i3]; exact d3
      · intro x
        rw [i4 x]
        exact d5 x
      · intro x h
        exact i5 x (d6 x h)
      · intro l2 hl2 sid2 hsid2
        rcases List.mem_cons.1 hl2 with rfl | hrest
        · have hss : sid2 = sid := by
            rw [hsid] at hsid2
            injection hsid2 with he
            exact he.symm
          subst hss
          exact i5 sid2 d4
        · exact i6 l2 hrest sid2 hsid2

theorem deletePeer_eq_present {bytes : List Nat} {s : NetState}
    (hn : hasNode (toHex bytes) s = true) :
    deletePeer (JSVal.buffer bytes) s =
      (match destroyLinks (linkedLinks (toHex bytes) s) s with
       | (none, s1) => (none, graphRemoveNode (toHex bytes) s1)
       | (some e, s1) => (some e, s1)) := by
  show (if hasNode (toHex bytes) s = true then
      (match destroyLinks (linkedLinks (toHex bytes) s) s with
       | (none, s1) => (none, graphRemoveNode (toHex bytes) s1)
       | (some e, s1) => (some e, s1))
    else (some (JsError.peerNotFound (toHex bytes)), s)) =
      (match destroyLinks (linkedLinks (toHex bytes) s) s with
       | (none, s1) => (none, graphRemoveNode (toHex bytes) s1)
       | (some e, s1) => (some e, s1))
  rw [if_pos hn]

theorem deletePeer_absent {bytes : List Nat} {s : NetState}
    (hn : hasNode (toHex bytes) s = false) :
    deletePeer (JSVal.buffer bytes) s = (some (JsError.peerNotFound (toHex bytes)), s) := by
  have heq : deletePeer (JSVal.buffer bytes) s =
      (if hasNode (toHex bytes) s = true then
        (match destroyLinks (linkedLinks (toHex bytes) s) s with
         | (none, s1) => (none, graphRemoveNode (toHex bytes) s1)
         | (some e, s1) => (some e, s1))
      else (some (JsError.peerNotFound (toHex bytes)), s)) := rfl
  rw [heq, hn]
  simp

theorem deletePeer_present (bytes : List Nat) (s : NetState)
    (hn : hasNode (toHex bytes) s = true)
    (hI : ∀ l ∈ s.links, incident (toHex bytes) l = true → l.slot.isSettled = true) :
    (deletePeer (JSVal.buffer bytes) s).1 = none ∧
    ((deletePeer (JSVal.buffer bytes) s).2).nodes =
      s.nodes.filter (fun n => !(n.1 == toHex bytes)) ∧
    ((deletePeer (JSVal.buffer bytes) s).2).links =
      s.links.filter (fun l => !incident (toHex bytes) l) ∧
    (∀ x, (((deletePeer (JSVal.buffer bytes) s).2).streams x).closed =
      (s.streams x).closed) ∧
    (∀ x, (s.streams x).destroyed = true →
      (((deletePeer (JSVal.buffer bytes) s).2).streams x).destroyed = true) ∧
    (∀ l ∈ s.links, incident (toHex bytes) l = true →
      ∀ sid, l.slot = LinkSlot.settled sid →
        (((deletePeer (JSVal.buffer bytes) s).2).streams sid).destroyed = true) := by
  have hset : ∀ l ∈ linkedLinks (toHex bytes) s, l.slot.isSettled = true := by
    intro l hl
    have hm := List.mem_filter.1 hl
    exact hI l hm.1 hm.2
  obtain ⟨d1, d2, d3, d4, d5, d6⟩ := destroyLinks_ok (linkedLinks (toHex bytes) s) s hset
  rcases hDL : destroyLinks (linkedLinks (toHex bytes) s) s with ⟨err, s1⟩
  rw [hDL] at d1 d2 d3 d4 d5 d6
  have herr : err = none := d1
  subst herr
  have heq : deletePeer (JSVal.buffer bytes) s =
      (none, graphRemoveNode (toHex bytes) s1) := by
    rw [deletePeer_eq_present hn, hDL]
  rw [heq]
  refine ⟨rfl, ?_, ?_, ?_, ?_, ?_⟩
  · show (graphRemoveNode (toHex bytes) s1).nodes = _
    unfold graphRemoveNode
    have h2 : s1.nodes = s.nodes := d2
    rw [h2]
  · show (graphRemoveNode (toHex bytes) s1).links = _
    unfold graphRemoveNode
    have h3 : s1.links = s.links := d3
    rw [h3]
  · intro x
    exact d4 x
  · intro x h
    exact d5 x h
  · intro l hl hin sid hsid
    have hmem : l ∈ linkedLinks (toHex bytes) s := List.mem_filter.2 ⟨hl, hin⟩
    exact d6 l hmem sid hsid

theorem any_filter_out {α : Type} (p : α → Bool) (xs : List α) :
    ((xs.filter (fun x => !p x)).any p) = false := by
  rw [List.any_eq_false]
  intro x hx
  have := (List.mem_filter.1 hx).2
  intro hc
  rw [hc] at this
  simp at this

/-! ## claim C3 -/

/-- C3 counterexample: `deletePeer` on a peer with one open connection
completes (returns, with no error) while the severed channel is only
destroying — it is not yet closed at completion, so completion is not gated
on the severed channels having fully closed. -/
theorem deletePeer_not_gated_cex :
    (deletePeer (JSVal.buffer [1]) twoPeerNet).1 = none ∧
    (((deletePeer (JSVal.buffer [1]) twoPeerNet).2).streams 0).destroyed = true ∧
    (((deletePeer (JSVal.buffer [1]) twoPeerNet).2).streams 0).closed = false := by
  exact ⟨rfl, rfl, rfl⟩

/-- C3 amended: `deletePeer(id)` fails with the peer-not-found error exactly
when no node with that identifier is registered; otherwise it destroys the
channel of every incident edge (unless already destroyed) and removes the
node with its edges — but it returns synchronously, without waiting for the
severed channels' close notifications: at completion no stream's closed flag
has changed (the close-gated variant exists only in the part_001 revision,
whose deletePeer returns Promise.all of per-channel close waits). -/
theorem deletePeer_spec (bytes : List Nat) (s : NetState)
    (hI : ∀ l ∈ s.links, incident (toHex bytes) l = true → l.slot.isSettled = true) :
    (hasNode (toHex bytes) s = false →
      deletePeer (JSVal.buffer bytes) s = (some (JsError.peerNotFound (toHex bytes)), s)) ∧
    (hasNode (toHex bytes) s = true →
      (deletePeer (JSVal.buffer bytes) s).1 = none ∧
      hasNode (toHex bytes) ((deletePeer (JSVal.buffer bytes) s).2) = false ∧
      (∀ l ∈ s.links, incident (toHex bytes) l = true →
        l ∉ ((deletePeer (JSVal.buffer bytes) s).2).links ∧
        ∀ sid, l.slot = LinkSlot.settled sid →
          (((deletePeer (JSVal.buffer bytes) s).2).streams sid).destroyed = true) ∧
      (∀ l ∈ s.links, incident (toHex bytes) l = false →
        l ∈ ((deletePeer (JSVal.buffer bytes) s).2).links) ∧
      (∀ x, (((deletePeer (JSVal.buffer bytes) s).2).streams x).closed =
        (s.streams x).closed)) := by
  constructor
  · intro hn
    exact deletePeer_absent hn
  · intro hn
    obtain ⟨p1, p2, p3, p4, p5, p6⟩ := deletePeer_present bytes s hn hI
    refine ⟨p1, ?_, ?_, ?_, p4⟩
    · unfold hasNode
      rw [p2]
      exact any_filter_out (fun n => n.1 == toHex bytes) s.nodes
    · intro l hl hin
      constructor
      · intro hmem
        rw [p3] at hmem
        have := (List.mem_filter.1 hmem).2
        rw [hin] at this
        simp at this
      · exact p6 l hl hin
    · intro l hl hin
      rw [p3]
      exact List.mem_filter.2 ⟨hl, by rw [hin]; rfl⟩

/-- Witness for C3's amended statement on a settled two-peer network with one
connection. -/
theorem deletePeer_spec_witness :
    (deletePeer (JSVal.buffer [1]) twoPeerNet).1 = none ∧
    hasNode (toHex [1]) ((deletePeer (JSVal.buffer [1]) twoPeerNet).2) = false ∧
    (∀ x, (((deletePeer (JSVal.buffer [1]) twoPeerNet).2).streams x).closed =
      (twoPeerNet.streams x).closed) := by
  have h := (deletePeer_spec [1] twoPeerNet (by decide)).2 (by decide)
  exact ⟨h.1, h.2.1, h.2.2.2.2⟩

/-! ## lemmas: deleteConnection -/

theorem incident_of_matchedU {f t : List Nat} {l : Link} (h : matchedU f t l = true) :
    incident f l = true := by
  unfold matchedU at h
  unfold incident
  simp only [Bool.or_eq_true, Bool.and_eq_true] at h ⊢
  rcases h with ⟨h1, _⟩ | ⟨h1, _⟩
  · exact Or.inl h1
  · exact Or.inr h1

theorem destroyIfMatch_ok (f t : List Nat) (l : Link) (s : NetState)
    (hset : matchedU f t l = true → l.slot.isSettled = true) :
    (destroyIfMatch f t l s).1 = none ∧
    (destroyIfMatch f t l s).2.nodes = s.nodes ∧
    (destroyIfMatch f t l s).2.links = s.links ∧
    (∀ x, (((destroyIfMatch f t l s).2).streams x).closed = (s.streams x).closed) ∧
    (∀ x, (s.streams x).destroyed = true →
      (((destroyIfMatch f t l s).2).streams x).destroyed = true) ∧
    (matchedU f t l = true → ∀ sid, l.slot = LinkSlot.settled sid →
      (((destroyIfMatch f t l s).2).streams sid).destroyed = true) := by
  by_cases c1 : (l.fromId == f && l.toId == t) = true
  · have hm : matchedU f t l = true := by
      unfold matchedU
      rw [c1]
      rfl
    obtain ⟨sid, hsid⟩ := linkSlot_settled_exists (hset hm)
    obtain ⟨d1, d2, d3, d4, d5, d6⟩ := destroyLink_ok s hsid
    rcases hDL : destroyLink l s with ⟨err, sA⟩
    rw [hDL] at d1 d2 d3 d4 d5 d6
    have herr : err = none := d1
    subst herr
    have heq : destroyIfMatch f t l s =
        (if (l.toId == f && l.fromId == t) = true then destroyLink l sA
         else (none, sA)) := by
      show (match (if (l.fromId == f && l.toId == t) = true then destroyLink l s
                   else (none, s)) with
            | (some e, s1) => (some e, s1)
            | (none, s1) =>
                if (l.toId == f && l.fromId == t) = true then destroyLink l s1
                else (none, s1)) =
          (if (l.toId == f && l.fromId == t) = true then destroyLink l sA
           else (none, sA))
      rw [if_pos c1, hDL]
    have hres : destroyIfMatch f t l s = (none, sA) := by
      rw [heq]
      by_cases c2 : (l.toId == f && l.fromId == t) = true
      · rw [if_pos c2]
        have h0 : destroyLink l sA =
            (if (sA.streams sid).destroyed = true then (none, sA)
             else (none, setStreamDestroyed sid sA)) := by
          unfold destroyLink
          rw [hsid]
        rw [h0, if_pos d4]
      · rw [if_neg c2]
    rw [hres]
    refine ⟨rfl, d2, d3, d5, d6, ?_⟩
    · intro _ sid2 hsid2
      have hss : sid2 = sid := by
        rw [hsid] at hsid2
        injection hsid2 with he
        exact he.symm
      rw [hss]
      exact d4
  · by_cases c2 : (l.toId == f && l.fromId == t) = true
    · have hm : matchedU f t l = true := by
        unfold matchedU
        rw [c2]
        simp
      obtain ⟨sid, hsid⟩ := linkSlot_settled_exists (hset hm)
      obtain ⟨d1, d2, d3, d4, d5, d6⟩ := destroyLink_ok s hsid
      have heq : destroyIfMatch f t l s = destroyLink l s := by
        have heq0 : destroyIfMatch f t l s =
            (if (l.toId == f && l.fromId == t) = true then destroyLink l s
             else (none, s)) := by
          show (match (if (l.fromId == f && l.toId == t) = true then destroyLink l s
                       else (none, s)) with
                | (some e, s1) => (some e, s1)
                | (none, s1) =>
                    if (l.toId == f && l.fromId == t) = true then destroyLink l s1
                    else (none, s1)) =
              (if (l.toId == f && l.fromId == t) = true then destroyLink l s
               else (none, s))
          rw [if_neg c1]
        rw [heq0, if_pos c2]
      rw [heq]
      refine ⟨d1, d2, d3, d5, d6, ?_⟩
      intro _ sid2 hsid2
      have hss : sid2 = sid := by
        rw [hsid] at hsid2
        injection hsid2 with he
        exact he.symm
      rw [hss]
      exact d4
    · have heq : destroyIfMatch f t l s = (none, s) := by
        have heq0 : destroyIfMatch f t l s =
            (if (l.toId == f && l.fromId == t) = true then destroyLink l s
             else (none, s)) := by
          show (match (if (l.fromId == f && l.toId == t) = true then destroyLink l s
                       else (none, s)) with
                | (some e, s1) => (some e, s1)
                | (none, s1) =>
                    if (l.toId == f && l.fromId == t) = true then destroyLink l s1
                    else (none, s1)) =
              (if (l.toId == f && l.fromId == t) = true then destroyLink l s
               else (none, s))
          rw [if_neg c1]
        rw [heq0, if_neg c2]
      rw [heq]
      refine ⟨rfl, rfl, rfl, fun _ => rfl, fun _ h => h, ?_⟩
      intro hm
      unfold matchedU at hm
      rw [Bool.or_eq_true] at hm
      rcases hm with h1 | h2
      · exact absurd h1 c1
      · exact absurd h2 c2

theorem destroyMatches_ok (f t : List Nat) :
    ∀ (L : List Link) (s : NetState),
      (∀ l ∈ L, matchedU f t l = true → l.slot.isSettled = true) →
      (destroyMatches f t L s).1 = none ∧
      (destroyMatches f t L s).2.nodes = s.nodes ∧
      (destroyMatches f t L s).2.links = s.links ∧
      (∀ x, (((destroyMatches f t L s).2).streams x).closed = (s.streams x).closed) ∧
      (∀ x, (s.streams x).destroyed = true →
        (((destroyMatches f t L s).2).streams x).destroyed = true) ∧
      (∀ l ∈ L, matchedU f t l = true → ∀ sid, l.slot = LinkSlot.settled sid →
        (((destroyMatches f t L s).2).streams sid).destroyed = true)
  | [], s, _ =>
      ⟨rfl, rfl, rfl, fun _ => rfl, fun _ h => h,
       fun l hl => absurd hl (List.not_mem_nil l)⟩
  | l :: rest, s, hset => by
      obtain ⟨d1, d2, d3, d4, d5, d6⟩ :=
        destroyIfMatch_ok f t l s (hset l (List.mem_cons_self l rest))
      rcases hDM : destroyIfMatch f t l s with ⟨err, sA⟩
      rw [hDM] at d1 d2 d3 d4 d5 d6
      have herr : err = none := d1
      subst herr
      have hstep : destroyMatches f t (l :: rest) s = destroyMatches f t rest sA := by
        show (match destroyIfMatch f t l s with
              | (none, s1) => destroyMatches f t rest s1
              | (some e, s1) => (some e, s1)) = destroyMatches f t rest sA
        rw [hDM]
      obtain ⟨i1, i2, i3, i4, i5, i6⟩ := destroyMatches_ok f t rest sA
        (fun l' hl' => hset l' (List.mem_cons_of_mem l hl'))
      rw [hstep]
      refine ⟨i1, ?_, ?_, ?_, ?_, ?_⟩
      · rw [i2]; exact d2
      · rw [i3]; exact d3
      · intro x
        rw [i4 x]
        exact d4 x
      · intro x h
        exact i5 x (d5 x h)
      · intro l2 hl2 hm sid hsid
        rcases List.mem_cons.1 hl2 with rfl | hrest
        · exact i5 sid (d6 hm sid hsid)
        · exact i6 l2 hrest hm sid hsid

theorem linkedLinks_congr {s1 s2 : NetState} (h : s1.links = s2.links) (k : List Nat) :
    linkedLinks k s1 = linkedLinks k s2 := by
  unfold linkedLinks
  rw [h]

theorem deleteConnection_ok (a b : List Nat) (s : NetState)
    (hM : ∀ l ∈ s.links, matchedU (toHex a) (toHex b) l = true →
      l.slot.isSettled = true) :
    (deleteConnection (JSVal.buffer a) (JSVal.buffer b) s).1 = none ∧
    ((deleteConnection (JSVal.buffer a) (JSVal.buffer b) s).2).nodes = s.nodes ∧
    ((deleteConnection (JSVal.buffer a) (JSVal.buffer b) s).2).links = s.links ∧
    (∀ x, (((deleteConnection (JSVal.buffer a) (JSVal.buffer b) s).2).streams x).closed =
      (s.streams x).closed) ∧
    (∀ l ∈ s.links, matchedU (toHex a) (toHex b) l = true →
      ∀ sid, l.slot = LinkSlot.settled sid →
        (((deleteConnection (JSVal.buffer a) (JSVal.buffer b) s).2).streams sid).destroyed =
          true) := by
  have hset1 : ∀ l ∈ linkedLinks (toHex a) s, matchedU (toHex a) (toHex b) l = true →
      l.slot.isSettled = true := by
    intro l hl
    exact hM l (List.mem_filter.1 hl).1
  obtain ⟨m1, m2, m3, m4, m5, m6⟩ :=
    destroyMatches_ok (toHex a) (toHex b) (linkedLinks (toHex a) s) s hset1
  rcases hP1 : destroyMatches (toHex a) (toHex b) (linkedLinks (toHex a) s) s with ⟨err, sA⟩
  rw [hP1] at m1 m2 m3 m4 m5 m6
  have herr : err = none := m1
  subst herr
  have hAlinks : sA.links = s.links := m3
  have heq : deleteConnection (JSVal.buffer a) (JSVal.buffer b) s =
      destroyMatches (toHex a) (toHex b) (linkedLinks (toHex b) sA) sA := by
    show (match destroyMatches (toHex a) (toHex b) (linkedLinks (toHex a) s) s with
          | (none, s1) => destroyMatches (toHex a) (toHex b) (linkedLinks (toHex b) s1) s1
          | (some e, s1) => (some e, s1)) =
        destroyMatches (toHex a) (toHex b) (linkedLinks (toHex b) sA) sA
    rw [hP1]
  have hset2 : ∀ l ∈ linkedLinks (toHex b) sA, matchedU (toHex a) (toHex b) l = true →
      l.slot.isSettled = true := by
    intro l hl
    have hmem : l ∈ sA.links := (List.mem_filter.1 hl).1
    rw [hAlinks] at hmem
    exact hM l hmem
  obtain ⟨n1, n2, n3, n4, n5, n6⟩ :=
    destroyMatches_ok (toHex a) (toHex b) (linkedLinks (toHex b) sA) sA hset2
  rw [heq]
  refine ⟨n1, ?_, ?_, ?_, ?_⟩
  · rw [n2]; exact m2
  · rw [n3]; exact hAlinks
  · intro x
    rw [n4 x]
    exact m4 x
  · intro l hl hm sid hsid
    have hin : l ∈ linkedLinks (toHex a) s :=
      List.mem_filter.2 ⟨hl, incident_of_matchedU hm⟩
    exact n5 sid (m6 l hin hm sid hsid)

/-! ## claim C6 -/

/-- C6: `deleteConnection(a, b)` destroys the channel of every edge matching
the unordered pair — an edge registered a-to-b and an edge registered b-to-a
are both treated as the same logical connection; once their close
notifications fire, every matching edge is removed from the graph. -/
theorem deleteConnection_unordered (a b : List Nat) (s : NetState)
    (hM : ∀ l ∈ s.links, matchedU (toHex a) (toHex b) l = true →
      l.slot.isSettled = true)
    (hC : ∀ l ∈ s.links, matchedU (toHex a) (toHex b) l = true →
      notClosedB s l.slot = true) :
    (deleteConnection (JSVal.buffer a) (JSVal.buffer b) s).1 = none ∧
    (∀ l ∈ s.links, matchedU (toHex a) (toHex b) l = true →
      ∀ sid, l.slot = LinkSlot.settled sid →
        (((deleteConnection (JSVal.buffer a) (JSVal.buffer b) s).2).streams sid).destroyed =
          true) ∧
    (∀ l ∈ s.links, matchedU (toHex a) (toHex b) l = true →
      l ∉ (runPendingCloses ((deleteConnection (JSVal.buffer a) (JSVal.buffer b) s).2)).links) := by
  obtain ⟨k1, k2, k3, k4, k5⟩ := deleteConnection_ok a b s hM
  refine ⟨k1, k5, ?_⟩
  intro l hl hm hmem
  obtain ⟨sid, hsid⟩ := linkSlot_settled_exists (hM l hl hm)
  have hclosing : closing ((deleteConnection (JSVal.buffer a) (JSVal.buffer b) s).2) l.slot =
      true := by
    rw [hsid]
    show ((((deleteConnection (JSVal.buffer a) (JSVal.buffer b) s).2).streams sid).destroyed &&
        !(((deleteConnection (JSVal.buffer a) (JSVal.buffer b) s).2).streams sid).closed) = true
    have hd := k5 l hl hm sid hsid
    have hc0 : (s.streams sid).closed = false := by
      have := hC l hl hm
      rw [hsid] at this
      have this2 : (!(s.streams sid).closed) = true := this
      cases hcl : (s.streams sid).closed
      · rfl
      · rw [hcl] at this2
        cases this2
    have hc : (((deleteConnection (JSVal.buffer a) (JSVal.buffer b) s).2).streams sid).closed =
        false := by
      rw [k4 sid]
      exact hc0
    rw [hd, hc]
    rfl
  have := (List.mem_filter.1 hmem).2
  rw [hclosing] at this
  simp at this

/-- Witness for C6 on a settled network with connections registered in both
orientations between the same two peers. -/
theorem deleteConnection_unordered_witness :
    (deleteConnection (JSVal.buffer [1]) (JSVal.buffer [2]) twoWayNet).1 = none ∧
    ((((deleteConnection (JSVal.buffer [1]) (JSVal.buffer [2]) twoWayNet).2).streams 0).destroyed
      = true) ∧
    ((((deleteConnection (JSVal.buffer [1]) (JSVal.buffer [2]) twoWayNet).2).streams 1).destroyed
      = true) := by
  have h := deleteConnection_unordered [1] [2] twoWayNet (by decide) (by decide)
  refine ⟨h.1, ?_, ?_⟩
  · exact h.2.1 ⟨0, toHex [1], toHex [2], LinkSlot.settled 0⟩ (by decide) (by decide) 0 rfl
  · exact h.2.1 ⟨1, toHex [2], toHex [1], LinkSlot.settled 1⟩ (by decide) (by decide) 1 rfl

/-! ## lemmas: destroy -/

theorem nodeMatchB_elim {p : List Nat × NodeSlot} (h : nodeMatchB p = true) :
    ∃ peer bytes, p.2 = NodeSlot.settled peer ∧ peer.id = JSVal.buffer bytes ∧
      toHex bytes = p.1 := by
  rcases p with ⟨k, sl⟩
  cases sl with
  | pending raw => cases h
  | failed e => cases h
  | settled peer =>
      have h1 : (match peer.id with
          | JSVal.buffer bytes => toHex bytes == k
          | _ => false) = true := h
      cases hid : peer.id with
      | str t =>
          rw [hid] at h1
          have h2 : false = true := h1
          cases h2
      | buffer bytes =>
          rw [hid] at h1
          have h2 : (toHex bytes == k) = true := h1
          exact ⟨peer, bytes, rfl, hid, by simpa using h2⟩

theorem hasNode_of_head (k : List Nat) (sl : NodeSlot) (rest : List (List Nat × NodeSlot))
    (s : NetState) (hns : s.nodes = (k, sl) :: rest) : hasNode k s = true := by
  unfold hasNode
  rw [hns]
  simp

theorem filter_keys_ne {k : List Nat} :
    ∀ (rest : List (List Nat × NodeSlot)), k ∉ rest.map (fun n => n.1) →
      rest.filter (fun n => !(n.1 == k)) = rest
  | [], _ => rfl
  | a :: tl, h => by
      simp only [List.map_cons, List.mem_cons, not_or] at h
      have hpa : (!(a.1 == k)) = true := by
        simp
        intro he
        exact h.1 he.symm
      have hstep : (a :: tl).filter (fun n => !(n.1 == k)) =
          a :: tl.filter (fun n => !(n.1 == k)) :=
        List.filter_cons_of_pos hpa
      rw [hstep, filter_keys_ne tl h.2]

theorem destroyPeersLoop_spec :
    ∀ (ns : List (List Nat × NodeSlot)) (s : NetState),
      s.nodes = ns →
      (∀ p ∈ ns, nodeMatchB p = true) →
      (ns.map (fun n => n.1)).Nodup →
      (∀ l ∈ s.links, l.slot.isSettled = true) →
      (∀ l ∈ s.links, l.fromId ∈ ns.map (fun n => n.1) ∧
        l.toId ∈ ns.map (fun n => n.1)) →
      (destroyPeersLoop (ns.map (fun n => n.2)) s).1 = none ∧
      ((destroyPeersLoop (ns.map (fun n => n.2)) s).2).nodes = [] ∧
      ((destroyPeersLoop (ns.map (fun n => n.2)) s).2).links = [] ∧
      (∀ x, (s.streams x).destroyed = true →
        (((destroyPeersLoop (ns.map (fun n => n.2)) s).2).streams x).destroyed = true) ∧
      (∀ l ∈ s.links, ∀ sid, l.slot = LinkSlot.settled sid →
        (((destroyPeersLoop (ns.map (fun n => n.2)) s).2).streams sid).destroyed = true) ∧
      (∀ x, (((destroyPeersLoop (ns.map (fun n => n.2)) s).2).streams x).closed =
        (s.streams x).closed)
  | [], s, hns, _, _, _, hD => by
      have hlinks : s.links = [] := by
        cases hL : s.links with
        | nil => rfl
        | cons l tl =>
            have := (hD l (by rw [hL]; exact List.mem_cons_self l tl)).1
            simp at this
      refine ⟨rfl, hns, hlinks, fun _ h => h, ?_, fun _ => rfl⟩
      intro l hl
      rw [hlinks] at hl
      cases hl
  | (k, sl) :: rest, s, hns, hA, hB, hC, hD => by
      obtain ⟨peer, bytes, hsl0, hpid, hkey0⟩ :=
        nodeMatchB_elim (hA (k, sl) (List.mem_cons_self _ _))
      have hsl : sl = NodeSlot.settled peer := hsl0
      have hkey : toHex bytes = k := hkey0
      have hn : hasNode (toHex bytes) s = true := by
        rw [hkey]
        exact hasNode_of_head k sl rest s hns
      have hI : ∀ l ∈ s.links, incident (toHex bytes) l = true → l.slot.isSettled = true :=
        fun l hl _ => hC l hl
      obtain ⟨p1, p2, p3, p4, p5, p6⟩ := deletePeer_present bytes s hn hI
      rcases hDP : deletePeer (JSVal.buffer bytes) s with ⟨err, s1⟩
      rw [hDP] at p1 p2 p3 p4 p5 p6
      have herr : err = none := p1
      subst herr
      have hstep : destroyPeersLoop (((k, sl) :: rest).map (fun n => n.2)) s =
          destroyPeersLoop (rest.map (fun n => n.2)) s1 := by
        show destroyPeersLoop (sl :: rest.map (fun n => n.2)) s =
          destroyPeersLoop (rest.map (fun n => n.2)) s1
        rw [hsl]
        show (match deletePeer peer.id s with
              | (none, s1) => destroyPeersLoop (rest.map (fun n => n.2)) s1
              | (some e, s1) => (some e, s1)) =
            destroyPeersLoop (rest.map (fun n => n.2)) s1
        rw [hpid, hDP]
      have hBk : k ∉ rest.map (fun n => n.1) :=
        (List.nodup_cons.1 (by simpa using hB)).1
      have hBrest : (rest.map (fun n => n.1)).Nodup :=
        (List.nodup_cons.1 (by simpa using hB)).2
      have hs1nodes : s1.nodes = rest := by
        have hp2 : s1.nodes = s.nodes.filter (fun n => !(n.1 == toHex bytes)) := p2
        rw [hp2, hns, hkey, List.filter_cons_of_neg (by simp)]
        exact filter_keys_ne rest hBk
      have hs1links : s1.links = s.links.filter (fun l => !incident k l) := by
        rw [← hkey]
        exact p3
      have hC1 : ∀ l ∈ s1.links, l.slot.isSettled = true := by
        intro l hl
        rw [hs1links] at hl
        exact hC l (List.mem_filter.1 hl).1
      have hD1 : ∀ l ∈ s1.links, l.fromId ∈ rest.map (fun n => n.1) ∧
          l.toId ∈ rest.map (fun n => n.1) := by
        intro l hl
        rw [hs1links] at hl
        obtain ⟨hmem, hninc⟩ := List.mem_filter.1 hl
        obtain ⟨hf, ht⟩ := hD l hmem
        simp only [List.map_cons, List.mem_cons] at hf ht
        have h2 : incident k l = false := by
          cases hi : incident k l
          · rfl
          · rw [hi] at hninc
            cases hninc
        have hincf : l.fromId ≠ k ∧ l.toId ≠ k := by
          unfold incident at h2
          constructor
          · intro he
            rw [he] at h2
            simp at h2
          · intro he
            rw [he] at h2
            simp at h2
        constructor
        · rcases hf with he | hmm
          · exact absurd he hincf.1
          · exact hmm
        · rcases ht with he | hmm
          · exact absurd he hincf.2
          · exact hmm
      obtain ⟨i1, i2, i3, i4, i5, i6⟩ := destroyPeersLoop_spec rest s1 hs1nodes
        (fun p hp => hA p (List.mem_cons_of_mem _ hp)) hBrest hC1 hD1
      rw [hstep]
      refine ⟨i1, i2, i3, ?_, ?_, ?_⟩
      · intro x h
        exact i4 x (p5 x h)
      · intro l hl sid hsid
        by_cases hinc : incident k l = true
        · have hd : (s1.streams sid).destroyed = true :=
            p6 l hl (by rw [hkey]; exact hinc) sid hsid
          exact i4 sid hd
        · have hmem1 : l ∈ s1.links := by
            rw [hs1links]
            refine List.mem_filter.2 ⟨hl, ?_⟩
            cases hi : incident k l
            · rfl
            · exact absurd hi hinc
          exact i5 l hmem1 sid hsid
      · intro x
        rw [i6 x]
        exact p4 x

theorem destroy_spec (s : NetState)
    (hA : nodesOk s = true) (hB : (s.nodes.map (fun n => n.1)).Nodup)
    (hC : linksSettled s = true) (hD : linkEndsOk s = true) :
    (destroy s).1 = none ∧
    ((destroy s).2).nodes = [] ∧
    ((destroy s).2).links = [] ∧
    (∀ l ∈ s.links, ∀ sid, l.slot = LinkSlot.settled sid →
      (((destroy s).2).streams sid).destroyed = true ∧
      (((destroy s).2).streams sid).closed = true) := by
  unfold nodesOk at hA
  unfold linksSettled at hC
  unfold linkEndsOk at hD
  have hA' : ∀ p ∈ s.nodes, nodeMatchB p = true := List.all_eq_true.1 hA
  have hC' : ∀ l ∈ s.links, l.slot.isSettled = true := List.all_eq_true.1 hC
  have hD' : ∀ l ∈ s.links, l.fromId ∈ s.nodes.map (fun n => n.1) ∧
      l.toId ∈ s.nodes.map (fun n => n.1) := by
    intro l hl
    have := List.all_eq_true.1 hD l hl
    simp only [Bool.and_eq_true] at this
    exact ⟨by simpa using this.1, by simpa using this.2⟩
  obtain ⟨L1, L2, L3, L4, L5, L6⟩ := destroyPeersLoop_spec s.nodes s rfl hA' hB hC' hD'
  rcases hLP : destroyPeersLoop (peers s) s with ⟨err, s1⟩
  have hLP' : destroyPeersLoop (s.nodes.map (fun n => n.2)) s = (err, s1) := hLP
  rw [hLP'] at L1 L2 L3 L4 L5 L6
  have herr : err = none := L1
  subst herr
  have heq : destroy s = (none, runPendingCloses s1) := by
    show (match destroyPeersLoop (peers s) s with
          | (none, s1) => (none, runPendingCloses s1)
          | (some e, s1) => (some e, s1)) = (none, runPendingCloses s1)
    rw [hLP]
  rw [heq]
  refine ⟨rfl, ?_, ?_, ?_⟩
  · exact L2
  · show s1.links.filter (fun l => !closing s1 l.slot) = []
    have h3 : s1.links = [] := L3
    rw [h3]
    rfl
  · intro l hl sid hsid
    have hdest : (s1.streams sid).destroyed = true := L5 l hl sid hsid
    constructor
    · show ((if (s1.streams sid).destroyed = true
          then { s1.streams sid with closed := true }
          else s1.streams sid)).destroyed = true
      rw [if_pos hdest]
      exact hdest
    · show ((if (s1.streams sid).destroyed = true
          then { s1.streams sid with closed := true }
          else s1.streams sid)).closed = true
      rw [if_pos hdest]

/-! ## claim C2 -/

/-- C2: after `destroy()` resolves, the peers accessor and the connections
accessor both return empty lists, and every channel that was registered as a
connection payload reports closed (and destroyed).  Hypotheses: the network's
creations have settled and each peer object's id round-trips to its node key
(true for the factories of this package), as on any network a topology build
returns. -/
theorem destroy_full_teardown (s : NetState)
    (hA : nodesOk s = true) (hB : (s.nodes.map (fun n => n.1)).Nodup)
    (hC : linksSettled s = true) (hD : linkEndsOk s = true) :
    (destroy s).1 = none ∧
    peers ((destroy s).2) = [] ∧
    connections ((destroy s).2) = [] ∧
    (∀ l ∈ s.links, ∀ sid, l.slot = LinkSlot.settled sid →
      (((destroy s).2).streams sid).destroyed = true ∧
      (((destroy s).2).streams sid).closed = true) := by
  obtain ⟨h1, h2, h3, h4⟩ := destroy_spec s hA hB hC hD
  refine ⟨h1, ?_, ?_, h4⟩
  · unfold peers
    rw [h2]
    rfl
  · unfold connections
    rw [h3]
    rfl

/-- Witness for C2 on a settled two-peer network with one open connection. -/
theorem destroy_full_teardown_witness :
    (destroy twoPeerNet).1 = none ∧
    peers ((destroy twoPeerNet).2) = [] ∧
    connections ((destroy twoPeerNet).2) = [] ∧
    (((destroy twoPeerNet).2).streams 0).destroyed = true ∧
    (((destroy twoPeerNet).2).streams 0).closed = true := by
  have h := destroy_full_teardown twoPeerNet (by decide) (by decide) (by decide) (by decide)
  have hs := h.2.2.2 ⟨0, toHex [1], toHex [2], LinkSlot.settled 0⟩ (by decide) 0 rfl
  exact ⟨h.1, h.2.1, h.2.2.1, hs.1, hs.2⟩

end NetGen
